import Mathlib

/-!
Shallow embedding of `src/support/fetch-and-filter-weekly.js`.

The script is a linear batch job: it loads a weekly snapshot of site-scanning
records (JSON objects), partitions them into three cohorts
(www.cancer.gov / other NCI / other federal), filters each cohort to home-page
records, aggregates per-cohort means, and produces two grouped-count analyses
over the other-NCI home-page cohort.

Records are JSON objects; we embed them as association lists from field names
to `JSValue`.  JavaScript arithmetic is embedded by `JSNum`, an `ℚ` extended
with `NaN` and the two infinities (IEEE rounding is irrelevant here: the only
operations performed by the script are sums, divisions and comparisons whose
claims are exact; signed zero is collapsed to `0`).
-/

/-- A JavaScript number as produced by the script's computations:
a finite value (modelled exactly as a rational), `NaN`, `Infinity` or
`-Infinity`. -/
inductive JSNum where
  | nan : JSNum
  | inf : JSNum
  | negInf : JSNum
  | num : ℚ → JSNum
deriving DecidableEq, Repr

/-- A JSON-like JavaScript value as found in snapshot records, plus
`undef` for `undefined` (never present in loaded JSON, but produced by
expressions such as `(5).length`). -/
inductive JSValue where
  | undef : JSValue
  | null : JSValue
  | bool : Bool → JSValue
  | num : ℚ → JSValue
  | str : String → JSValue
  | arr : List JSValue → JSValue
  | obj : List (String × JSValue) → JSValue

/-- A record of the snapshot: a JavaScript object, i.e. a finite map from
field names to values, embedded as an association list. -/
abbrev RecordMap := List (String × JSValue)

/-- `record[key]`: field access.  `none` plays the role of `undefined`
(absent key). -/
def jsGet (record : RecordMap) (key : String) : Option JSValue :=
  record.lookup key

/-- Replace the first binding of `key` in an association list
(the binding keeps its position, as a JavaScript object key does). -/
def assocSet {β : Type} : List (String × β) → String → β → List (String × β)
  | [], _, _ => []
  | (k, e) :: rest, key, v =>
    if k == key then (key, v) :: rest else (k, e) :: assocSet rest key v

/-- `{...m, [key]: v}` on a string-keyed object: replace the binding if the
key is present, else append it. -/
def jsObjSet {β : Type} (m : List (String × β)) (key : String) (v : β) : List (String × β) :=
  if m.any (fun p => p.1 == key) then assocSet m key v else m ++ [(key, v)]

/-- `{...record, [key]: v}`: object spread with one overriding key. -/
def jsSet (record : RecordMap) (key : String) (v : JSValue) : RecordMap :=
  jsObjSet record key v

/-- JavaScript truthiness of a value. -/
def jsTruthyV : JSValue → Bool
  | .undef => false
  | .null => false
  | .bool b => b
  | .num q => decide (q ≠ 0)
  | .str s => decide (s ≠ "")
  | .arr _ => true
  | .obj _ => true

/-- Truthiness of a possibly-absent value (`undefined` is falsy). -/
def jsTruthy : Option JSValue → Bool
  | none => false
  | some v => jsTruthyV v

/-- Trim leading and trailing whitespace from a character list (the
list-level model of JavaScript's `String.prototype.trim`). -/
def trimChars (cs : List Char) : List Char :=
  ((cs.dropWhile Char.isWhitespace).reverse.dropWhile Char.isWhitespace).reverse

/-- Split a character list on a separator character. -/
def splitOnChar (sep : Char) : List Char → List (List Char)
  | [] => [[]]
  | c :: rest =>
    if c = sep then [] :: splitOnChar sep rest
    else
      match splitOnChar sep rest with
      | [] => [[c]]
      | h :: t => (c :: h) :: t

/-- The numeric value of a run of decimal digits. -/
def natFromDigits (cs : List Char) : ℕ :=
  cs.foldl (fun a c => a * 10 + (c.toNat - 48)) 0

/-- A non-empty all-digit run, or `none`. -/
def parseNatDigits (cs : List Char) : Option ℕ :=
  if cs ≠ [] ∧ cs.all Char.isDigit then some (natFromDigits cs) else none

/-- Decimal mantissa `123`, `123.45`, `.45` or `123.` (at least one digit). -/
def parseDecimalMantissa (m : List Char) : Option ℚ :=
  match splitOnChar '.' m with
  | [i] => (parseNatDigits i).map (fun n => (n : ℚ))
  | [i, f] =>
    if i ≠ [] ∨ f ≠ [] then
      if i.all Char.isDigit ∧ f.all Char.isDigit then
        some ((natFromDigits i : ℚ) + (natFromDigits f : ℚ) / (10 : ℚ) ^ f.length)
      else none
    else none
  | _ => none

/-- Signed decimal integer (for an exponent part). -/
def parseSignedInt (e : List Char) : Option ℤ :=
  match e with
  | '-' :: rest => (parseNatDigits rest).map (fun n => -(n : ℤ))
  | '+' :: rest => (parseNatDigits rest).map (fun n => (n : ℤ))
  | _ => (parseNatDigits e).map (fun n => (n : ℤ))

/-- Unsigned numeric literal body, with optional decimal exponent.
(Hex/octal/binary literal strings are not modelled; no field coerced by the
script carries them.) -/
def parseUnsignedDecimal (body : List Char) : Option ℚ :=
  match splitOnChar 'e' (body.map (fun c => if c = 'E' then 'e' else c)) with
  | [m] => parseDecimalMantissa m
  | [m, e] =>
    match parseDecimalMantissa m, parseSignedInt e with
    | some mq, some ev => some (mq * (10 : ℚ) ^ ev)
    | _, _ => none
  | _ => none

/-- JavaScript `Number(string)`: trimmed empty string is `0`, optional sign,
`Infinity`, decimal literals; anything else is `NaN`. -/
def jsStringToNumber (s : String) : JSNum :=
  let t := trimChars s.data
  if t = [] then .num 0
  else
    let sgnNeg := t.head? = some '-'
    let body := if t.head? = some '-' ∨ t.head? = some '+' then t.tail else t
    if body = "Infinity".data then (if sgnNeg then .negInf else .inf)
    else
      match parseUnsignedDecimal body with
      | some q => .num (if sgnNeg then -q else q)
      | none => .nan

/-- JavaScript `Number(v)` on a value.  Arrays convert through their string
form: `[]` is `0`, a singleton converts as its element (a boolean singleton
is `NaN` since `Number("true")` is `NaN`), longer arrays contain a comma and
are `NaN`; plain objects are `NaN`. -/
def jsToNumberV : JSValue → JSNum
  | .undef => .nan
  | .null => .num 0
  | .bool b => .num (if b then 1 else 0)
  | .num q => .num q
  | .str s => jsStringToNumber s
  | .arr [] => .num 0
  | .arr [.bool _] => .nan
  | .arr [v] => jsToNumberV v
  | .arr (_ :: _ :: _) => .nan
  | .obj _ => .nan

/-- `Number(record[key])`, where an absent key reads as `undefined`. -/
def jsToNumber : Option JSValue → JSNum
  | none => .nan
  | some v => jsToNumberV v

/-- JavaScript `+` on numbers. -/
def jsAdd : JSNum → JSNum → JSNum
  | .nan, _ => .nan
  | _, .nan => .nan
  | .inf, .negInf => .nan
  | .negInf, .inf => .nan
  | .inf, _ => .inf
  | _, .inf => .inf
  | .negInf, _ => .negInf
  | _, .negInf => .negInf
  | .num a, .num b => .num (a + b)

/-- JavaScript `/` on numbers (signed zero collapsed: `x / 0` with `x ≠ 0`
is an infinity by the sign of `x`, `0 / 0` is `NaN`). -/
def jsDiv : JSNum → JSNum → JSNum
  | .nan, _ => .nan
  | _, .nan => .nan
  | .inf, .inf => .nan
  | .inf, .negInf => .nan
  | .negInf, .inf => .nan
  | .negInf, .negInf => .nan
  | .inf, .num b => if b < 0 then .negInf else .inf
  | .negInf, .num b => if b < 0 then .inf else .negInf
  | .num _, .inf => .num 0
  | .num _, .negInf => .num 0
  | .num a, .num b =>
    if b = 0 then (if a = 0 then .nan else if a > 0 then .inf else .negInf)
    else .num (a / b)

/-- JavaScript `<` after numeric conversion (`NaN` compares false). -/
def JSNum.ltb : JSNum → JSNum → Bool
  | .nan, _ => false
  | _, .nan => false
  | .num a, .num b => decide (a < b)
  | .negInf, .negInf => false
  | .negInf, _ => true
  | _, .negInf => false
  | .inf, _ => false
  | _, .inf => true

/-- JavaScript `>=` after numeric conversion (`NaN` compares false). -/
def JSNum.geb : JSNum → JSNum → Bool
  | .nan, _ => false
  | _, .nan => false
  | .num a, .num b => decide (b ≤ a)
  | .inf, _ => true
  | _, .inf => false
  | _, .negInf => true
  | .negInf, _ => false

example : jsStringToNumber "" = .num 0 := by decide
example : jsStringToNumber "abc" = .nan := by decide
example : jsToNumberV (.bool true) = .num 1 := by decide
example : jsDiv (.num 0) (.num 0) = .nan := by decide
example : jsGet [("a", .null)] "a" = some .null := rfl
example : jsGet [("a", .null)] "b" = none := rfl

/-! ## Partitioner (`splitRecordsByFilter`, `extractUniqueHomePageEntries`) -/

/-- One step of `splitRecordsByFilter`'s `reduce`. -/
def splitStep (filterFn : RecordMap → Option Bool)
    (ac : Option (List RecordMap × List RecordMap)) (record : RecordMap) :
    Option (List RecordMap × List RecordMap) :=
  match ac with
  | none => none
  | some (filterMatches, other) =>
    match filterFn record with
    | none => none
    | some true => some (filterMatches ++ [record], other)
    | some false => some (filterMatches, other ++ [record])

/-- `splitRecordsByFilter(data, filterFn)`: one `reduce` pass appending each
record either to `filterMatches` or to `other`, preserving input order.
The filter function may throw (the script's second-stage filter calls
`.match` on a possibly-null field), which aborts the whole run; a throwing
filter is embedded as `none`, and the failure is absorbing, exactly as an
exception propagating out of `reduce`. -/
def splitRecordsByFilter (data : List RecordMap) (filterFn : RecordMap → Option Bool) :
    Option (List RecordMap × List RecordMap) :=
  data.foldl (splitStep filterFn) (some ([], []))

/-- Stage-1 predicate: `record.final_url_website === 'www.cancer.gov'`.
Strict equality with a string literal holds exactly for an equal string
value; it never throws. -/
def isWWWRecord (record : RecordMap) : Bool :=
  match jsGet record "final_url_website" with
  | some (.str s) => s == "www.cancer.gov"
  | _ => false

/-- String suffix test (`s` ends with `suffix`). -/
def strEndsWith (s suffix : String) : Bool :=
  suffix.data.isSuffixOf s.data

/-- The regex `/.*\.(cancer|ncifcrf|nci\.nih|smokefree)\.gov$/` (no flags)
matches a string exactly when it ends with one of the four literal domain
suffixes; `.*` is unanchored and may be empty, and without the `m` flag `$`
matches only at the very end of the input. -/
def nciPattern (s : String) : Bool :=
  strEndsWith s ".cancer.gov" || strEndsWith s ".ncifcrf.gov" ||
    strEndsWith s ".nci.nih.gov" || strEndsWith s ".smokefree.gov"

/-- Stage-2 predicate: `record.final_url_website.match(nci regex)`.
Calling `.match` on anything but a string throws a `TypeError` (embedded as
`none`); the match result is used for its truthiness. -/
def isNCIRecord (record : RecordMap) : Option Bool :=
  match jsGet record "final_url_website" with
  | some (.str s) => some (nciPattern s)
  | _ => none

/-- The two-stage partition performed by `main`: stage 1 extracts
`www.cancer.gov` records, stage 2 splits the remainder by the NCI domain
pattern.  `none` embeds the uncaught `TypeError` thrown when a non-www
record has no string `final_url_website`. -/
def partitionRecords (data : List RecordMap) :
    Option (List RecordMap × List RecordMap × List RecordMap) :=
  match splitRecordsByFilter data (fun record => some (isWWWRecord record)) with
  | none => none
  | some (wwwRecords, nonWWWother) =>
    match splitRecordsByFilter nonWWWother isNCIRecord with
    | none => none
    | some (otherNCIRecords, otherFedRecords) =>
      some (wwwRecords, otherNCIRecords, otherFedRecords)

/-- `extractUniqueHomePageEntries(records)`: keep records whose
`target_url_redirects` is falsy (`!record.target_url_redirects`). -/
def extractUniqueHomePageEntries (records : List RecordMap) : List RecordMap :=
  records.filter (fun record => !jsTruthy (jsGet record "target_url_redirects"))

/-! ## Aggregator (`getFieldMean`, `getMeanFn`, `hasRequiredLink`) -/

/-- `getFieldMean(records, fieldName, transformFn)`: sum
`Number(transformFn(structuredClone(record))[fieldName])` over the records
and divide by the record count.  `structuredClone` yields a fresh deep copy
whose value equals the record, so on values it is the identity; the aliasing
it prevents is modelled separately by `getFieldMeanHeap`. -/
def getFieldMean (records : List RecordMap) (fieldName : String)
    (transformFn : RecordMap → RecordMap) : JSNum :=
  let sum := records.foldl
    (fun ac record => jsAdd ac (jsToNumber (jsGet (transformFn record) fieldName)))
    (.num 0)
  jsDiv sum (.num (records.length : ℚ))

/-- The per-cohort result shape `{www, nci, other}`. -/
structure CohortResult where
  www : JSNum
  nci : JSNum
  other : JSNum
deriving DecidableEq, Repr

/-- `getMeanFn(fieldName, transformFn, filterFn)` applied to the three
home-page cohorts.  The source's default arguments (`transformFn` the
identity, `filterFn` accepting everything) are passed explicitly at every
use site below. -/
def getMeanFn (fieldName : String) (transformFn : RecordMap → RecordMap)
    (filterFn : RecordMap → Bool)
    (wwwHome otherNCIHomeRecords otherFedHomeRecords : List RecordMap) : CohortResult :=
  { www := getFieldMean (wwwHome.filter filterFn) fieldName transformFn
    nci := getFieldMean (otherNCIHomeRecords.filter filterFn) fieldName transformFn
    other := getFieldMean (otherFedHomeRecords.filter filterFn) fieldName transformFn }

/-- `hay.includes(needle)` on strings: substring containment
(the empty needle is always contained). -/
def strContainsSubstr (hay needle : String) : Bool :=
  (List.range (hay.data.length + 1)).any (fun i => needle.data.isPrefixOf (hay.data.drop i))

/-- JavaScript `v != null`: loose inequality with `null` is false exactly
for `null` and `undefined`. -/
def jsLooseNeNull (v : Option JSValue) : Bool :=
  match v with
  | none => false
  | some .undef => false
  | some .null => false
  | some _ => true

/-- JavaScript `v.length > 0` for the values that can reach it here:
arrays and strings have a `length`; on other values the property read
yields `undefined` and `undefined > 0` is false. -/
def jsLengthPos (v : Option JSValue) : Bool :=
  match v with
  | some (.arr l) => decide (0 < l.length)
  | some (.str s) => decide (0 < s.data.length)
  | _ => false

/-- JavaScript `v.includes(x)` for an array (element membership by strict
equality, so a string `x` is found only as an equal string element) and for
a string (substring containment). -/
def jsIncludes (v : Option JSValue) (x : String) : Bool :=
  match v with
  | some (.arr l) =>
    l.any (fun e =>
      match e with
      | .str t => t == x
      | _ => false)
  | some (.str t) => strContainsSubstr t x
  | _ => false

/-- `hasRequiredLink(record, urls, text)` from the source: each side checks
its own list is non-empty, the record field is not nullish and has positive
length, and then ORs `record[field].includes(candidate)` over the
candidates. -/
def hasRequiredLink (record : RecordMap) (urls text : List String) : Bool :=
  let hasUrl := decide (0 < urls.length) && jsLooseNeNull (jsGet record "required_links_url")
    && jsLengthPos (jsGet record "required_links_url")
    && urls.foldl (fun ac url => ac || jsIncludes (jsGet record "required_links_url") url) false
  let hasText := decide (0 < text.length) && jsLooseNeNull (jsGet record "required_links_text")
    && jsLengthPos (jsGet record "required_links_text")
    && text.foldl (fun ac t => ac || jsIncludes (jsGet record "required_links_text") t) false
  hasUrl || hasText

/-- The spec's reading of `hasRequiredLink` (for comparison with the
implementation above): "returns true if the record's `required_links_url`
sequence contains any of `urlSubstrings` as a substring of any entry, OR its
`required_links_text` sequence contains any of `textSubstrings` as a
substring of any entry". -/
def hasRequiredLinkSpec (record : RecordMap) (urls text : List String) : Bool :=
  let urlEntries :=
    match jsGet record "required_links_url" with
    | some (.arr l) => l.filterMap (fun e : JSValue => match e with | .str t => some t | _ => none)
    | _ => []
  let textEntries :=
    match jsGet record "required_links_text" with
    | some (.arr l) => l.filterMap (fun e : JSValue => match e with | .str t => some t | _ => none)
    | _ => []
  urlEntries.any (fun entry => urls.any (fun u => strContainsSubstr entry u)) ||
    textEntries.any (fun entry => text.any (fun t => strContainsSubstr entry t))

example :
    partitionRecords
      [[("final_url_website", JSValue.str "www.cancer.gov")],
       [("final_url_website", JSValue.str "dceg.cancer.gov")],
       [("final_url_website", JSValue.str "www.nih.gov")]] =
    some ([[("final_url_website", JSValue.str "www.cancer.gov")]],
      [[("final_url_website", JSValue.str "dceg.cancer.gov")]],
      [[("final_url_website", JSValue.str "www.nih.gov")]]) := rfl

example : partitionRecords [[("final_url_website", JSValue.null)]] = none := rfl

example :
    hasRequiredLink
      [("required_links_url", JSValue.arr [JSValue.str "about-us"]),
       ("required_links_text", JSValue.arr [])] ["about"] ["zzz"] = false := by decide

example :
    hasRequiredLinkSpec
      [("required_links_url", JSValue.arr [JSValue.str "about-us"]),
       ("required_links_text", JSValue.arr [])] ["about"] ["zzz"] = true := by decide

example :
    hasRequiredLink [("required_links_url", JSValue.arr [JSValue.str "about"])]
      ["about"] ["x"] = true := by decide

/-! ## ReportBuilder (`generateReport`) -/

/-- The shape shared by every boolean metric of the report: spread the
record and set `tmp_field` to the boolean value of a predicate,
`{...rec, tmp_field: <boolean expression>}`. -/
def indicatorTransform (p : RecordMap → Bool) : RecordMap → RecordMap :=
  fun rec => jsSet rec "tmp_field" (.bool (p rec))

/-- `Number(rec[f]) < q` (also `rec[f] < q` for a numeric literal `q`:
a relational operator with one number operand converts the other with
`ToNumber`). -/
def fieldLt (f : String) (q : ℚ) (rec : RecordMap) : Bool :=
  (jsToNumber (jsGet rec f)).ltb (.num q)

/-- `Number(rec[f]) >= q` (and `rec[f] >= q`, as above). -/
def fieldGe (f : String) (q : ℚ) (rec : RecordMap) : Bool :=
  (jsToNumber (jsGet rec f)).geb (.num q)

/-- JavaScript `rec[f] == 0` (loose equality with the number literal `0`):
`null` and `undefined` are only loosely equal to each other; every other
value is converted with `ToNumber` and compared. -/
def fieldLooseEqZero (f : String) (rec : RecordMap) : Bool :=
  match jsGet rec f with
  | none => false
  | some .undef => false
  | some .null => false
  | some x =>
    match jsToNumberV x with
    | .num a => decide (a = 0)
    | _ => false

/-- `rec[f] !== null && rec[f].trim() !== ''`.  On `undefined` or a
non-string value JavaScript would throw calling `.trim`; the snapshot's
text fields are always a string or `null`, and those unreachable cases are
embedded as `false`. -/
def fieldNonBlankStr (f : String) (rec : RecordMap) : Bool :=
  match jsGet rec f with
  | some (.str s) => decide (trimChars s.data ≠ [])
  | _ => false

/-- `rec[f] !== null` (strict: false only for the value `null`; an absent
field is `undefined`, which is `!== null`). -/
def fieldStrictNeNull (f : String) (rec : RecordMap) : Bool :=
  match jsGet rec f with
  | some .null => false
  | _ => true

/-- `(rec[f] ?? '').length`: nullish coalescing then the `length` property.
Strings and arrays have a length (string length is embedded as the
character count); on any other value the property read yields `undefined`. -/
def fieldNullishLength (f : String) (rec : RecordMap) : JSValue :=
  match jsGet rec f with
  | none => .num 0
  | some .undef => .num 0
  | some .null => .num 0
  | some (.str s) => .num (s.data.length : ℚ)
  | some (.arr l) => .num (l.length : ℚ)
  | some _ => JSValue.undef

/-- `Number(rec['uswds_count'] ?? 0) > 0`. -/
def uswdsCountPos (rec : RecordMap) : Bool :=
  match jsGet rec "uswds_count" with
  | none => false
  | some .undef => false
  | some .null => false
  | some v => JSNum.ltb (.num 0) (jsToNumberV v)

/-- `generateReport(wwwHomeRecords, otherNCIHomeRecords, otherFedHomeRecords)`:
the ordered table of metric label to `{www, nci, other}` value, every entry a
`getMeanFn` evaluation (the source's default transform is the identity and
its default filter accepts every record; both are spelled out here). -/
def generateReport (wwwHomeRecords otherNCIHomeRecords otherFedHomeRecords : List RecordMap) :
    List (String × CohortResult) :=
  let go := fun (fieldName : String) (tf : RecordMap → RecordMap) (ff : RecordMap → Bool) =>
    getMeanFn fieldName tf ff wwwHomeRecords otherNCIHomeRecords otherFedHomeRecords
  let idTf : RecordMap → RecordMap := fun rec => rec
  let allF : RecordMap → Bool := fun _ => true
  [("Performance - Cumulative Layout Shift (Average)", go "cumulative_layout_shift" idTf allF),
   ("Performance - Cumulative Layout Shift (% Good)",
     go "tmp_field" (indicatorTransform (fieldLt "cumulative_layout_shift" (1 / 10))) allF),
   ("Performance - Cumulative Layout Shift (% Needs improvement)",
     go "tmp_field" (indicatorTransform (fun rec =>
       fieldGe "cumulative_layout_shift" (1 / 10) rec &&
         fieldLt "cumulative_layout_shift" (1 / 4) rec)) allF),
   ("Performance - Cumulative Layout Shift (% Poor)",
     go "tmp_field" (indicatorTransform (fieldGe "cumulative_layout_shift" (1 / 4))) allF),
   ("Performance - Largest Contentful Paint (Average)", go "largest_contentful_paint" idTf allF),
   ("Performance - Largest Contentful Paint (% Good)",
     go "tmp_field" (indicatorTransform (fieldLt "largest_contentful_paint" 2500)) allF),
   ("Performance - Largest Contentful Paint (% Needs improvement)",
     go "tmp_field" (indicatorTransform (fun rec =>
       fieldGe "largest_contentful_paint" 2500 rec &&
         fieldLt "largest_contentful_paint" 4000 rec)) allF),
   ("Performance - Largest Contentful Paint (% Poor)",
     go "tmp_field" (indicatorTransform (fieldGe "largest_contentful_paint" 4000)) allF),
   ("Third-party Service Domains (Average Count)", go "third_party_service_count" idTf allF),
   ("Third-party Service Domains (% use 0 services)",
     go "tmp_field" (indicatorTransform (fieldLooseEqZero "third_party_service_count")) allF),
   ("Third-party Service Domains (% use 1-5 services)",
     go "tmp_field" (indicatorTransform (fun rec =>
       fieldGe "third_party_service_count" 1 rec &&
         fieldLt "third_party_service_count" 6 rec)) allF),
   ("Third-party Service Domains (% use 6-10 services)",
     go "tmp_field" (indicatorTransform (fun rec =>
       fieldGe "third_party_service_count" 6 rec &&
         fieldLt "third_party_service_count" 11 rec)) allF),
   ("Third-party Service Domains (% use 11-20 services)",
     go "tmp_field" (indicatorTransform (fun rec =>
       fieldGe "third_party_service_count" 11 rec &&
         fieldLt "third_party_service_count" 21 rec)) allF),
   ("Third-party Service Domains (% more than 20 services)",
     go "tmp_field" (indicatorTransform (fieldGe "third_party_service_count" 21)) allF),
   ("Sitemap.xml Detected (% having)", go "sitemap_xml_detected" idTf allF),
   ("SEO - title (% having)",
     go "tmp_field" (indicatorTransform (fieldNonBlankStr "title")) allF),
   ("SEO - title (Avg Length, where exists)",
     go "tmp_field" (fun rec => jsSet rec "tmp_field" (fieldNullishLength "title" rec))
       (fieldNonBlankStr "title")),
   ("SEO - description (% having)",
     go "tmp_field" (indicatorTransform (fieldNonBlankStr "description")) allF),
   ("SEO - description (Avg Length, where exists)",
     go "tmp_field" (fun rec => jsSet rec "tmp_field" (fieldNullishLength "description" rec))
       (fieldNonBlankStr "description")),
   ("SEO - og:title (% having)",
     go "tmp_field" (indicatorTransform (fieldNonBlankStr "og_title")) allF),
   ("SEO - og:description (% having)",
     go "tmp_field" (indicatorTransform (fieldNonBlankStr "og_description")) allF),
   ("SEO - article:published_time (% having)",
     go "tmp_field" (indicatorTransform (fieldStrictNeNull "og_article_published")) allF),
   ("SEO - article:modified_time (% having)",
     go "tmp_field" (indicatorTransform (fieldStrictNeNull "og_article_modified")) allF),
   ("SEO - Canonical Link (% having)",
     go "tmp_field" (indicatorTransform (fieldNonBlankStr "canonical_link")) allF),
   ("Robots.txt Detected (% having)", go "robots_txt_detected" idTf allF),
   ("Mobile - Viewport Meta Tag Detected (% having)", go "viewport_meta_tag" idTf allF),
   ("Required Links - About (% having)",
     go "tmp_field" (indicatorTransform (fun rec => hasRequiredLink rec ["about"] ["about us"])) allF),
   ("Required Links - No Fear Act (% having)",
     go "tmp_field" (indicatorTransform (fun rec => hasRequiredLink rec ["fear"] ["no fear act"])) allF),
   ("Required Links - FOIA (% having)",
     go "tmp_field" (indicatorTransform (fun rec =>
       hasRequiredLink rec ["foia"] ["foia", "freedom of information act"])) allF),
   ("Required Links - Privacy Policy (% having)",
     go "tmp_field" (indicatorTransform (fun rec =>
       hasRequiredLink rec ["privacy"] ["privacy policy"])) allF),
   ("Required Links - USA.gov (% having)",
     go "tmp_field" (indicatorTransform (fun rec => hasRequiredLink rec ["usa.gov"] ["usa.gov"])) allF),
   ("Required Links - Spanish (% having)",
     go "tmp_field" (indicatorTransform (fun rec =>
       hasRequiredLink rec ["spanish", "espanol", "español", "/es"]
         ["espanol", "español", "espa&ntilde;ol", "spanish"])) allF),
   ("Required Links - Vulnerability Disclosure (% having)",
     go "tmp_field" (indicatorTransform (fun rec =>
       hasRequiredLink rec [] ["vulnerability disclosure"])) allF),
   ("Required Links - Budget and Performance (% having)",
     go "tmp_field" (indicatorTransform (fun rec =>
       hasRequiredLink rec [] ["budget and performance"])) allF),
   ("Required Links - Inspector General (% having)",
     go "tmp_field" (indicatorTransform (fun rec =>
       hasRequiredLink rec ["inspector"] ["inspector general"])) allF),
   ("Infrastructure - Site Search Detected (% having)", go "site_search" idTf allF),
   ("Infrastructure - DAP Detected (% having)", go "dap" idTf allF),
   ("Infrastructure - Search.gov Detected", go "search_dot_gov" idTf allF),
   ("DNS - IPv6 (% having)", go "ipv6" idTf allF),
   ("USWDS - Count (% having non 0)",
     go "tmp_field" (indicatorTransform uswdsCountPos) allF),
   ("USWDS - Count (avg)", go "uswds_count" idTf uswdsCountPos)]

/-! ## Side groupings over the other-NCI home-page cohort -/

/-- `{...m1, ...m2}`: every binding of `m2` written into `m1` in order,
overriding existing keys. -/
def mergeSpread {β : Type} (m1 m2 : List (String × β)) : List (String × β) :=
  m2.foldl (fun acc kv => jsObjSet acc kv.1 kv.2) m1

/-- One `(agency, subagency, count)` bucket of the DAP-parameter grouping. -/
structure DapEntry where
  agency : String
  subagency : String
  count : ℕ
deriving DecidableEq, Repr

/-- `record['dap_parameters'] && record['dap_parameters'][field] ? <it> : '_NONE_'`.
Property access on a truthy non-object yields `undefined` (falsy), hence
`_NONE_`.  A truthy non-string sub-field would be coerced by the template
literal `${agency}|${subagency}`; that string conversion is not modelled and
is embedded as a failure (`none`) — snapshot DAP parameters are strings. -/
def dapParamField (record : RecordMap) (field : String) : Option String :=
  match jsGet record "dap_parameters" with
  | none => some "_NONE_"
  | some dp =>
    if jsTruthyV dp then
      match dp with
      | .obj kvs =>
        match kvs.lookup field with
        | none => some "_NONE_"
        | some v =>
          if jsTruthyV v then
            match v with
            | .str s => some s
            | _ => none
          else some "_NONE_"
      | _ => some "_NONE_"
    else some "_NONE_"

/-- The DAP-parameter grouping: group the cohort by the composite key
`agency|subagency`, counting occurrences, first-seen order.  (The source's
initial accumulator is the array literal `[]`; only its string-keyed
properties are ever used, so it behaves as a plain object, embedded as an
association list.) -/
def dapStep (ac : Option (List (String × DapEntry))) (record : RecordMap) :
    Option (List (String × DapEntry)) :=
  match ac with
  | none => none
  | some m =>
    match dapParamField record "agency", dapParamField record "subagency" with
    | some agency, some subagency =>
      let key := agency ++ "|" ++ subagency
      match m.lookup key with
      | some entry => some (jsObjSet m key ⟨entry.agency, entry.subagency, entry.count + 1⟩)
      | none => some (jsObjSet m key ⟨agency, subagency, 1⟩)
    | _, _ => none

def otherNCIdapParams (records : List RecordMap) : Option (List (String × DapEntry)) :=
  records.foldl dapStep (some [])

/-- Truthiness of a count read off an object: an absent key is `undefined`
(falsy); a present count is truthy unless it is `0`. -/
def countTruthy (v : Option ℕ) : Bool :=
  decide (v.getD 0 ≠ 0)

/-- The inner `reduce` of the domain grouping: fold one record's
`third_party_service_domains` entries into a fresh object `domainac`,
seeding a domain first seen in this record from the outer accumulator
(`ac[domain] + 1`) and incrementing on repeats within the record.
A non-string domain would be coerced to a property key by JavaScript; that
conversion is not modelled and is embedded as a failure (`none`) — snapshot
domains are strings. -/
def innerStep (acm : List (String × ℕ)) (dac : Option (List (String × ℕ)))
    (v : JSValue) : Option (List (String × ℕ)) :=
  match dac with
  | none => none
  | some domainac =>
    match v with
    | .str domain =>
      if countTruthy (domainac.lookup domain) then
        some (jsObjSet domainac domain ((domainac.lookup domain).getD 0 + 1))
      else if countTruthy (acm.lookup domain) then
        some (jsObjSet domainac domain ((acm.lookup domain).getD 0 + 1))
      else
        some (jsObjSet domainac domain 1)
    | _ => none

def innerDomainFold (acm : List (String × ℕ)) (domains : List JSValue) :
    Option (List (String × ℕ)) :=
  domains.foldl (innerStep acm) (some [])

/-- The third-party-domain grouping: per record, skip when
`third_party_service_domains` is falsy, otherwise run the inner fold and
merge it over the accumulator with `{...ac, ...domainac}`.  A truthy
non-array value would make `.reduce` throw (`none`). -/
def tpsStep (ac : Option (List (String × ℕ))) (record : RecordMap) :
    Option (List (String × ℕ)) :=
  match ac with
  | none => none
  | some acm =>
    if !jsTruthy (jsGet record "third_party_service_domains") then some acm
    else
      match jsGet record "third_party_service_domains" with
      | some (.arr domains) =>
        match innerDomainFold acm domains with
        | some domainac => some (mergeSpread acm domainac)
        | none => none
      | _ => none

def otherNCIthirdPartyServices (records : List RecordMap) : Option (List (String × ℕ)) :=
  records.foldl tpsStep (some [])

/-- The string carried by a string value. -/
def strOf : JSValue → Option String
  | .str s => some s
  | _ => none

/-- The string entries of one record's `third_party_service_domains`
(a falsy field contributes nothing). -/
def extractDomains (record : RecordMap) : List String :=
  if !jsTruthy (jsGet record "third_party_service_domains") then []
  else
    match jsGet record "third_party_service_domains" with
    | some (.arr domains) => domains.filterMap strOf
    | _ => []

/-- All (record, domain) pairs of a cohort, flattened in order. -/
def flattenDomains (records : List RecordMap) : List String :=
  records.flatMap extractDomains

/-- Sum of the counts of a DAP grouping. -/
def dapSumCounts (m : List (String × DapEntry)) : ℕ :=
  (m.map (fun kv => kv.2.count)).sum

/-- Sum of the counts of a domain grouping. -/
def domainSumCounts (m : List (String × ℕ)) : ℕ :=
  (m.map Prod.snd).sum

/-- Count read off an object, with `0` for an absent key. -/
def lookupD (m : List (String × ℕ)) (k : String) : ℕ :=
  (m.lookup k).getD 0

/-- Invariant of the inner domain fold: after processing the string domains
`seen` of the current record, `dac` has exactly the keys `seen`, with no
duplicate keys, positive counts, and each count equal to the outer
accumulator's count plus the occurrences seen in this record. -/
def InnerInv (acm : List (String × ℕ)) (seen : List String)
    (dac : List (String × ℕ)) : Prop :=
  (dac.map Prod.fst).Nodup ∧ (∀ p ∈ dac, 0 < p.2) ∧
  (∀ d, d ∈ dac.map Prod.fst ↔ d ∈ seen) ∧
  (∀ d ∈ seen, lookupD dac d = lookupD acm d + seen.count d)

/-- Invariant of the outer domain fold: the accumulator has no duplicate
keys, positive counts, and realises exactly the occurrence counts of the
flattened domain list `F`. -/
def OuterInv (F : List String) (m : List (String × ℕ)) : Prop :=
  (m.map Prod.fst).Nodup ∧ (∀ p ∈ m, 0 < p.2) ∧ (∀ d, lookupD m d = F.count d)

/-! ## Driver (`main` after the dataset is loaded) -/

/-- How a run can terminate with a non-zero exit status after loading:
the uncaught `TypeError` of the second partition stage, the www home-page
cardinality guard, or an uncaught error while building the groupings. -/
inductive RunError where
  | partitionTypeError
  | integrityError
  | groupingTypeError
deriving DecidableEq, Repr

/-- Everything a successful run hands to the output collaborator. -/
structure MainOutput where
  homeReport : List (String × CohortResult)
  dapParams : List (String × DapEntry)
  thirdPartyServices : List (String × ℕ)

/-- The driver `main`, after the dataset has been loaded: partition into the
three cohorts, derive the home-page subsets, enforce the www home-page
cardinality guard (`process.exit(1)` before any report when it fails), then
build the report and the two groupings. Loading and printing are
out-of-scope collaborators. -/
def runMain (data : List RecordMap) : Except RunError MainOutput :=
  match partitionRecords data with
  | none => .error .partitionTypeError
  | some (wwwRecords, otherNCIRecords, otherFedRecords) =>
    let wwwHomeRecords := extractUniqueHomePageEntries wwwRecords
    let otherNCIHomeRecords := extractUniqueHomePageEntries otherNCIRecords
    let otherFedHomeRecords := extractUniqueHomePageEntries otherFedRecords
    if wwwHomeRecords.length ≠ 1 then .error .integrityError
    else
      let homeReport := generateReport wwwHomeRecords otherNCIHomeRecords otherFedHomeRecords
      match otherNCIdapParams otherNCIHomeRecords,
          otherNCIthirdPartyServices otherNCIHomeRecords with
      | some dap, some tps => .ok ⟨homeReport, dap, tps⟩
      | _, _ => .error .groupingTypeError

/-! ## Heap model of `getFieldMean` (for the no-mutation claim) -/

/-- A heap model of `getFieldMean` for the aliasing claim: the cohort's
records live in cells addressed by list index, and `structuredClone`
allocates a fresh cell holding a copy of the record.  A JavaScript transform
function is represented by the value it returns (`transformRet`, whose field
is read) together with the in-place update it performs on its argument
object (`transformMut`); the source applies the function to
`structuredClone(record)`, so both act on the fresh copy and the original
cells are never written. -/
def heapStep (fieldName : String) (transformRet transformMut : RecordMap → RecordMap)
    (ac : JSNum × List RecordMap) (addr : ℕ) : JSNum × List RecordMap :=
  let record := ac.2.getD addr []
  (jsAdd ac.1 (jsToNumber (jsGet (transformRet record) fieldName)),
    ac.2 ++ [transformMut record])

def getFieldMeanHeap (cells : List RecordMap) (addrs : List ℕ) (fieldName : String)
    (transformRet transformMut : RecordMap → RecordMap) : JSNum × List RecordMap :=
  let r := addrs.foldl (heapStep fieldName transformRet transformMut) (.num 0, cells)
  (jsDiv r.1 (.num (addrs.length : ℚ)), r.2)

/-! # Verification

Association-list and fold lemmas, then one theorem per specification claim.
-/

lemma lookup_isSome_iff_any {β : Type} (m : List (String × β)) (k : String) :
    (m.lookup k).isSome = m.any (fun p => p.1 == k) := by
  induction m with
  | nil => rfl
  | cons p rest ih =>
    obtain ⟨k0, v0⟩ := p
    by_cases h : k = k0
    · subst h; simp [List.lookup]
    · have h1 : (k == k0) = false := beq_eq_false_iff_ne.mpr h
      have h2 : (k0 == k) = false := beq_eq_false_iff_ne.mpr (Ne.symm h)
      simp [List.lookup, h1, h2, ih]

lemma lookup_append {β : Type} (l1 l2 : List (String × β)) (k : String) :
    (l1 ++ l2).lookup k =
      match l1.lookup k with
      | some v => some v
      | none => l2.lookup k := by
  induction l1 with
  | nil => simp [List.lookup]
  | cons p rest ih =>
    obtain ⟨k0, v0⟩ := p
    by_cases h : k == k0 <;> simp [List.lookup, h, ih]

lemma assocSet_lookup_self {β : Type} (m : List (String × β)) (k : String) (v : β)
    (h : m.any (fun p => p.1 == k) = true) : (assocSet m k v).lookup k = some v := by
  induction m with
  | nil => simp at h
  | cons p rest ih =>
    obtain ⟨k0, v0⟩ := p
    by_cases hk : k0 = k
    · subst hk; simp [assocSet, List.lookup]
    · have h1 : (k0 == k) = false := beq_eq_false_iff_ne.mpr hk
      have h2 : (k == k0) = false := beq_eq_false_iff_ne.mpr (Ne.symm hk)
      simp only [List.any_cons, h1, Bool.false_or] at h
      simp [assocSet, h1, List.lookup, h2, ih h]

lemma assocSet_lookup_ne {β : Type} (m : List (String × β)) (k kq : String) (v : β)
    (h : kq ≠ k) : (assocSet m k v).lookup kq = m.lookup kq := by
  induction m with
  | nil => rfl
  | cons p rest ih =>
    obtain ⟨k0, v0⟩ := p
    by_cases hk : k0 = k
    · subst hk
      have h1 : (kq == k0) = false := beq_eq_false_iff_ne.mpr h
      simp [assocSet, List.lookup, h1]
    · have h1 : (k0 == k) = false := beq_eq_false_iff_ne.mpr hk
      simp [assocSet, h1, List.lookup, ih]

lemma assocSet_map_fst {β : Type} (m : List (String × β)) (k : String) (v : β) :
    (assocSet m k v).map Prod.fst = m.map Prod.fst := by
  induction m with
  | nil => rfl
  | cons p rest ih =>
    obtain ⟨k0, v0⟩ := p
    by_cases hk : k0 = k
    · subst hk; simp [assocSet]
    · simp [assocSet, beq_iff_eq, hk, ih]

lemma mem_assocSet {β : Type} {m : List (String × β)} {k : String} {v : β} {p : String × β}
    (h : p ∈ assocSet m k v) : p ∈ m ∨ p = (k, v) := by
  induction m with
  | nil => simp [assocSet] at h
  | cons q rest ih =>
    obtain ⟨k0, v0⟩ := q
    by_cases hk : k0 = k
    · subst hk
      simp only [assocSet, beq_iff_eq, if_true] at h
      rcases List.mem_cons.mp h with h1 | h1
      · right; exact h1
      · left; exact List.mem_cons_of_mem _ h1
    · simp only [assocSet, beq_iff_eq, hk, if_false] at h
      rcases List.mem_cons.mp h with h1 | h1
      · left; exact h1 ▸ List.mem_cons_self _ _
      · rcases ih h1 with h2 | h2
        · left; exact List.mem_cons_of_mem _ h2
        · right; exact h2

lemma any_fst_iff_mem {β : Type} (m : List (String × β)) (k : String) :
    m.any (fun p => p.1 == k) = true ↔ k ∈ m.map Prod.fst := by
  simp [List.any_eq_true, List.mem_map, beq_iff_eq]

lemma jsObjSet_lookup_self {β : Type} (m : List (String × β)) (k : String) (v : β) :
    (jsObjSet m k v).lookup k = some v := by
  by_cases h : m.any (fun p => p.1 == k) = true
  · rw [jsObjSet, if_pos h]; exact assocSet_lookup_self m k v h
  · rw [Bool.not_eq_true] at h
    rw [jsObjSet, h]
    simp only [Bool.false_eq_true, if_false]
    rw [lookup_append]
    have hnone : m.lookup k = none := by
      have hiff := lookup_isSome_iff_any m k
      rw [h] at hiff
      exact Option.not_isSome_iff_eq_none.mp (by simp [hiff])
    simp [hnone, List.lookup]

lemma jsObjSet_lookup_ne {β : Type} (m : List (String × β)) (k kq : String) (v : β)
    (h : kq ≠ k) : (jsObjSet m k v).lookup kq = m.lookup kq := by
  by_cases hp : m.any (fun p => p.1 == k) = true
  · rw [jsObjSet, if_pos hp]; exact assocSet_lookup_ne m k kq v h
  · rw [Bool.not_eq_true] at hp
    rw [jsObjSet, hp]
    simp only [Bool.false_eq_true, if_false]
    rw [lookup_append]
    rcases ho : m.lookup kq with _ | w
    · have h1 : (kq == k) = false := beq_eq_false_iff_ne.mpr h
      simp [List.lookup, h1]
    · simp

lemma jsGet_jsSet (record : RecordMap) (key : String) (v : JSValue) :
    jsGet (jsSet record key v) key = some v := by
  unfold jsGet jsSet
  exact jsObjSet_lookup_self record key v

lemma foldl_or_eq_any {α : Type} (g : α → Bool) (l : List α) (b : Bool) :
    l.foldl (fun ac x => ac || g x) b = (b || l.any g) := by
  induction l generalizing b with
  | nil => simp
  | cons x rest ih => simp [ih, Bool.or_assoc]

lemma foldl_jsAdd_num (g : RecordMap → ℚ) (l : List RecordMap) (a : ℚ) :
    l.foldl (fun ac record => jsAdd ac (.num (g record))) (.num a) =
      .num (a + (l.map g).sum) := by
  induction l generalizing a with
  | nil => simp
  | cons r rest ih =>
    rw [List.foldl_cons]
    have hstep : jsAdd (.num a) (.num (g r)) = .num (a + g r) := rfl
    rw [hstep, ih, List.map_cons, List.sum_cons, add_assoc]

lemma sum_map_indicator {α : Type} (p : α → Bool) (l : List α) :
    (l.map (fun x => if p x then (1 : ℚ) else 0)).sum = (l.countP p : ℚ) := by
  induction l with
  | nil => simp
  | cons x rest ih =>
    by_cases h : p x
    · simp [List.countP_cons, h, ih]
      ring
    · simp [List.countP_cons, h, ih]

lemma getFieldMean_setBool (p : RecordMap → Bool) (fieldName : String)
    (records : List RecordMap) :
    getFieldMean records fieldName (fun rec => jsSet rec fieldName (.bool (p rec))) =
      jsDiv (.num (records.countP p : ℚ)) (.num (records.length : ℚ)) := by
  unfold getFieldMean
  have hget : ∀ record : RecordMap,
      jsToNumber (jsGet (jsSet record fieldName (.bool (p record))) fieldName) =
        .num (if p record then (1 : ℚ) else 0) := by
    intro record
    rw [jsGet_jsSet]
    cases p record <;> rfl
  simp only [hget]
  rw [foldl_jsAdd_num (fun record => if p record then (1 : ℚ) else 0)]
  rw [zero_add, sum_map_indicator]

lemma mean_indicator_eq (p : RecordMap → Bool) (fieldName : String)
    (cohort : List RecordMap) (h : cohort ≠ []) :
    getFieldMean cohort fieldName (fun rec => jsSet rec fieldName (.bool (p rec))) =
      .num ((cohort.countP p : ℚ) / (cohort.length : ℚ)) := by
  rw [getFieldMean_setBool]
  have hlen : ((cohort.length : ℕ) : ℚ) ≠ 0 :=
    Nat.cast_ne_zero.mpr (Nat.pos_iff_ne_zero.mp (List.length_pos.mpr h))
  simp [jsDiv, hlen]

lemma indicator_ratio_bounds (p : RecordMap → Bool) (l : List RecordMap) (h : l ≠ []) :
    0 ≤ (l.countP p : ℚ) / (l.length : ℚ) ∧ (l.countP p : ℚ) / (l.length : ℚ) ≤ 1 := by
  have hlen : (0 : ℚ) < (l.length : ℚ) := by
    exact_mod_cast List.length_pos.mpr h
  constructor
  · exact div_nonneg (Nat.cast_nonneg _) (Nat.cast_nonneg _)
  · rw [div_le_one hlen]
    exact_mod_cast List.countP_le_length p

/-- Claim C5: computing the mean of any field under any transform over an
empty record sequence yields the non-numeric sentinel `NaN` (JavaScript
`0/0`), not an error; an empty cohort is non-fatal and surfaces only as
that value. -/
theorem getFieldMean_empty_eq_nan (fieldName : String)
    (transformFn : RecordMap → RecordMap) :
    getFieldMean [] fieldName transformFn = .nan := by
  simp [getFieldMean, jsDiv]

/-- Claim C2: for every boolean predicate `p` and non-empty cohort, the
mean (via `getFieldMean`) of the transform that sets a derived field to the
0/1-coerced boolean value of `p` equals the count of records satisfying `p`
divided by the cohort length: every percentage metric is the mean of an
indicator function. -/
theorem mean_of_indicator_eq_count_div_length (p : RecordMap → Bool)
    (fieldName : String) (cohort : List RecordMap) (h : cohort ≠ []) :
    getFieldMean cohort fieldName (fun rec => jsSet rec fieldName (.bool (p rec))) =
      .num ((cohort.countP p : ℚ) / (cohort.length : ℚ)) :=
  mean_indicator_eq p fieldName cohort h

/-- Witness for the mean-of-indicator identity at a concrete two-record
cohort. -/
theorem mean_of_indicator_eq_count_div_length_witness :
    getFieldMean [[("x", JSValue.bool true)], [("x", JSValue.bool false)]] "tmp_field"
        (fun rec => jsSet rec "tmp_field" (.bool (jsTruthy (jsGet rec "x")))) =
      .num ((List.countP (fun rec => jsTruthy (jsGet rec "x"))
            [[("x", JSValue.bool true)], [("x", JSValue.bool false)]] : ℚ) /
          (List.length [[("x", JSValue.bool true)], [("x", JSValue.bool false)]] : ℚ)) :=
  mean_of_indicator_eq_count_div_length (fun rec => jsTruthy (jsGet rec "x")) "tmp_field"
    [[("x", JSValue.bool true)], [("x", JSValue.bool false)]] (by simp)

/-- Claim C8: every percentage metric of the report is a `getMeanFn`
evaluation of an indicator transform over the filtered home-page cohorts;
whenever the three filtered cohorts are non-empty, all three of its values
are rational proportions in the closed interval [0, 1] (never multiplied
by 100). -/
theorem report_percentages_in_unit_interval (p : RecordMap → Bool)
    (filterFn : RecordMap → Bool) (wwwHome nciHome fedHome : List RecordMap)
    (hw : wwwHome.filter filterFn ≠ []) (hn : nciHome.filter filterFn ≠ [])
    (hf : fedHome.filter filterFn ≠ []) :
    ∃ a b c : ℚ,
      getMeanFn "tmp_field" (indicatorTransform p) filterFn wwwHome nciHome fedHome =
        ⟨.num a, .num b, .num c⟩ ∧
      0 ≤ a ∧ a ≤ 1 ∧ 0 ≤ b ∧ b ≤ 1 ∧ 0 ≤ c ∧ c ≤ 1 := by
  have hww := mean_indicator_eq p "tmp_field" (wwwHome.filter filterFn) hw
  have hnn := mean_indicator_eq p "tmp_field" (nciHome.filter filterFn) hn
  have hff := mean_indicator_eq p "tmp_field" (fedHome.filter filterFn) hf
  have bw := indicator_ratio_bounds p (wwwHome.filter filterFn) hw
  have bn := indicator_ratio_bounds p (nciHome.filter filterFn) hn
  have bf := indicator_ratio_bounds p (fedHome.filter filterFn) hf
  refine ⟨_, _, _, ?_, bw.1, bw.2, bn.1, bn.2, bf.1, bf.2⟩
  unfold getMeanFn indicatorTransform
  rw [hww, hnn, hff]

/-- Witness for the unit-interval bound at concrete singleton cohorts. -/
theorem report_percentages_in_unit_interval_witness :
    ∃ a b c : ℚ,
      getMeanFn "tmp_field" (indicatorTransform (fun rec => jsTruthy (jsGet rec "dap")))
          (fun _ => true) [[("dap", JSValue.bool true)]] [[("dap", JSValue.bool false)]]
          [[("dap", JSValue.bool true)]] =
        ⟨.num a, .num b, .num c⟩ ∧
      0 ≤ a ∧ a ≤ 1 ∧ 0 ≤ b ∧ b ≤ 1 ∧ 0 ≤ c ∧ c ≤ 1 :=
  report_percentages_in_unit_interval (fun rec => jsTruthy (jsGet rec "dap")) (fun _ => true)
    [[("dap", JSValue.bool true)]] [[("dap", JSValue.bool false)]] [[("dap", JSValue.bool true)]]
    (by simp) (by simp) (by simp)

/-- Claim C6: when both required-link fields are null (or absent, or empty
sequences), `hasRequiredLink` is false for every pair of substring lists —
the `!= null` and `.length > 0` guards protect the dereference. -/
theorem hasRequiredLink_null_safe (record : RecordMap) (urls text : List String)
    (hu : jsGet record "required_links_url" = none ∨
      jsGet record "required_links_url" = some .null ∨
      jsGet record "required_links_url" = some (.arr []))
    (ht : jsGet record "required_links_text" = none ∨
      jsGet record "required_links_text" = some .null ∨
      jsGet record "required_links_text" = some (.arr [])) :
    hasRequiredLink record urls text = false := by
  unfold hasRequiredLink
  rcases hu with hu | hu | hu <;> rcases ht with ht | ht | ht <;> rw [hu, ht] <;>
    simp [jsLooseNeNull, jsLengthPos]

/-- Witness: the record with both required-link fields null never matches. -/
theorem hasRequiredLink_null_safe_witness :
    hasRequiredLink
      [("required_links_url", JSValue.null), ("required_links_text", JSValue.null)]
      ["x"] ["y"] = false :=
  hasRequiredLink_null_safe _ ["x"] ["y"] (Or.inr (Or.inl rfl)) (Or.inr (Or.inl rfl))

lemma any_isStr_iff_mem (ul : List JSValue) (u : String) :
    (ul.any (fun e => match e with | JSValue.str t => t == u | _ => false)) = true ↔
      JSValue.str u ∈ ul := by
  rw [List.any_eq_true]
  constructor
  · rintro ⟨e, he, hm⟩
    cases e with
    | str t => rw [beq_iff_eq] at hm; exact hm ▸ he
    | undef => simp at hm
    | null => simp at hm
    | bool b => simp at hm
    | num q => simp at hm
    | arr l => simp at hm
    | obj o => simp at hm
  · intro h
    exact ⟨JSValue.str u, h, by simp⟩

/-- Claim C4 fails as stated: the source matches candidates against the
`required_links_url` / `required_links_text` sequences with
`Array.prototype.includes`, i.e. exact element membership, not substring
containment.  At this record the substring reading (`hasRequiredLinkSpec`)
is true — "about" is a substring of the entry "about-us" — while the
implementation returns false, with both candidate lists non-empty. -/
theorem hasRequiredLink_substring_counterexample :
    hasRequiredLinkSpec
        [("required_links_url", JSValue.arr [JSValue.str "about-us"]),
         ("required_links_text", JSValue.arr [])] ["about"] ["zzz"] = true ∧
    hasRequiredLink
        [("required_links_url", JSValue.arr [JSValue.str "about-us"]),
         ("required_links_text", JSValue.arr [])] ["about"] ["zzz"] = false :=
  ⟨by decide, by decide⟩

/-- Claim C4 (amended): with both candidate lists non-empty and both
required-link fields holding sequences, `hasRequiredLink` is true iff some
element of `urls` occurs as an element (exact string equality, not
substring) of `required_links_url`, or some element of `text` occurs as an
element of `required_links_text`. -/
theorem hasRequiredLink_iff_member (record : RecordMap) (urls text : List String)
    (ul tl : List JSValue)
    (hu : jsGet record "required_links_url" = some (.arr ul))
    (ht : jsGet record "required_links_text" = some (.arr tl))
    (hurls : urls ≠ []) (htext : text ≠ []) :
    (hasRequiredLink record urls text = true ↔
      (∃ u ∈ urls, JSValue.str u ∈ ul) ∨ (∃ t ∈ text, JSValue.str t ∈ tl)) := by
  unfold hasRequiredLink
  rw [hu, ht]
  have h1 : decide (0 < urls.length) = true := decide_eq_true (List.length_pos.mpr hurls)
  have h2 : decide (0 < text.length) = true := decide_eq_true (List.length_pos.mpr htext)
  simp only [jsLooseNeNull, jsLengthPos, jsIncludes, h1, h2, Bool.true_and,
    foldl_or_eq_any, Bool.false_or, Bool.or_eq_true, Bool.and_eq_true,
    decide_eq_true_eq, List.any_eq_true]
  constructor
  · rintro (⟨_, u, hu2, hmem⟩ | ⟨_, t, ht2, hmem⟩)
    · exact Or.inl ⟨u, hu2, (any_isStr_iff_mem ul u).mp (List.any_eq_true.mpr hmem)⟩
    · exact Or.inr ⟨t, ht2, (any_isStr_iff_mem tl t).mp (List.any_eq_true.mpr hmem)⟩
  · rintro (⟨u, hu2, hmem⟩ | ⟨t, ht2, hmem⟩)
    · refine Or.inl ⟨List.length_pos_of_mem hmem, u, hu2, ?_⟩
      exact List.any_eq_true.mp ((any_isStr_iff_mem ul u).mpr hmem)
    · refine Or.inr ⟨List.length_pos_of_mem hmem, t, ht2, ?_⟩
      exact List.any_eq_true.mp ((any_isStr_iff_mem tl t).mpr hmem)

/-- Witness for the amended membership characterisation at a concrete
record. -/
theorem hasRequiredLink_iff_member_witness :
    hasRequiredLink
        [("required_links_url", JSValue.arr [JSValue.str "about"]),
         ("required_links_text", JSValue.arr [JSValue.str "about us"])]
        ["about"] ["x"] = true ↔
      (∃ u ∈ ["about"], JSValue.str u ∈ [JSValue.str "about"]) ∨
      (∃ t ∈ ["x"], JSValue.str t ∈ [JSValue.str "about us"]) :=
  hasRequiredLink_iff_member _ ["about"] ["x"] [JSValue.str "about"]
    [JSValue.str "about us"] rfl rfl (by simp) (by simp)

lemma heap_fold_spec (fieldName : String) (tr tm : RecordMap → RecordMap) :
    ∀ (addrs : List ℕ) (heap cells : List RecordMap) (s : JSNum),
      cells <+: heap → (∀ a ∈ addrs, a < cells.length) →
      cells <+: (addrs.foldl (heapStep fieldName tr tm) (s, heap)).2 ∧
      (addrs.foldl (heapStep fieldName tr tm) (s, heap)).1 =
        (addrs.map (fun a => cells.getD a [])).foldl
          (fun ac record => jsAdd ac (jsToNumber (jsGet (tr record) fieldName))) s := by
  intro addrs
  induction addrs with
  | nil => exact fun heap cells s hpre _ => ⟨hpre, rfl⟩
  | cons a rest ih =>
    intro heap cells s hpre hlt
    have ha : a < cells.length := hlt a (List.mem_cons_self a rest)
    have hread : heap.getD a [] = cells.getD a [] := by
      obtain ⟨t, rfl⟩ := hpre
      exact List.getD_append cells t [] a ha
    have hpre1 : cells <+: (heap ++ [tm (cells.getD a [])]) :=
      hpre.trans (List.prefix_append heap [tm (cells.getD a [])])
    rw [List.foldl_cons, List.map_cons, List.foldl_cons]
    have hstep : heapStep fieldName tr tm (s, heap) a =
        (jsAdd s (jsToNumber (jsGet (tr (heap.getD a [])) fieldName)),
          heap ++ [tm (heap.getD a [])]) := rfl
    rw [hstep, hread]
    exact ih (heap ++ [tm (cells.getD a [])]) cells
      (jsAdd s (jsToNumber (jsGet (tr (cells.getD a [])) fieldName))) hpre1
      (fun x hx => hlt x (List.mem_cons_of_mem a hx))

/-- Claim C9: `getFieldMean` leaves every input record unchanged.  In the
heap model, after the run every original cell still holds its initial
record (the transform's in-place effect `transformMut` only ever hits the
fresh `structuredClone` cells), and the computed value agrees with the pure
`getFieldMean` of the records as loaded, for any transform behaviour. -/
theorem getFieldMeanHeap_no_mutation (cells : List RecordMap) (addrs : List ℕ)
    (fieldName : String) (transformRet transformMut : RecordMap → RecordMap)
    (h : ∀ a ∈ addrs, a < cells.length) :
    ((getFieldMeanHeap cells addrs fieldName transformRet transformMut).2).take cells.length =
      cells ∧
    (getFieldMeanHeap cells addrs fieldName transformRet transformMut).1 =
      getFieldMean (addrs.map (fun a => cells.getD a [])) fieldName transformRet := by
  have hmain := heap_fold_spec fieldName transformRet transformMut addrs cells cells (.num 0)
    (List.prefix_refl cells) h
  constructor
  · exact (List.prefix_iff_eq_take.mp hmain.1).symm
  · show jsDiv (addrs.foldl (heapStep fieldName transformRet transformMut) (.num 0, cells)).1
        (.num (addrs.length : ℚ)) = _
    rw [hmain.2]
    unfold getFieldMean
    rw [List.length_map]

/-- Witness for the no-mutation property at a concrete one-record heap,
with a transform that overwrites the whole record in place. -/
theorem getFieldMeanHeap_no_mutation_witness :
    ((getFieldMeanHeap [[("cumulative_layout_shift", JSValue.num 1)]] [0]
        "cumulative_layout_shift" (fun rec => rec) (fun _ => [])).2).take 1 =
      [[("cumulative_layout_shift", JSValue.num 1)]] ∧
    (getFieldMeanHeap [[("cumulative_layout_shift", JSValue.num 1)]] [0]
        "cumulative_layout_shift" (fun rec => rec) (fun _ => [])).1 =
      getFieldMean ([0].map (fun a => [[("cumulative_layout_shift", JSValue.num 1)]].getD a []))
        "cumulative_layout_shift" (fun rec => rec) :=
  getFieldMeanHeap_no_mutation [[("cumulative_layout_shift", JSValue.num 1)]] [0]
    "cumulative_layout_shift" (fun rec => rec) (fun _ => []) (by simp)

lemma split_foldl_none (f : RecordMap → Option Bool) (l : List RecordMap) :
    l.foldl (splitStep f) none = none := by
  induction l with
  | nil => rfl
  | cons r rest ih => rw [List.foldl_cons]; exact ih

lemma split_foldl_eq (f : RecordMap → Option Bool) :
    ∀ (l : List RecordMap) (m o : List RecordMap),
      l.foldl (splitStep f) (some (m, o)) =
        if l.all (fun r => (f r).isSome) then
          some (m ++ l.filter (fun r => f r == some true),
            o ++ l.filter (fun r => f r == some false))
        else none := by
  intro l
  induction l with
  | nil => intro m o; simp
  | cons r rest ih =>
    intro m o
    rw [List.foldl_cons]
    have hallc : ((r :: rest).all fun x => (f x).isSome) =
        ((f r).isSome && rest.all fun x => (f x).isSome) := List.all_cons
    rcases hf : f r with _ | b
    · have hstep : splitStep f (some (m, o)) r = none := by simp [splitStep, hf]
      rw [hstep, split_foldl_none, hallc, hf]
      simp
    · cases b
      · have hstep : splitStep f (some (m, o)) r = some (m, o ++ [r]) := by
          simp [splitStep, hf]
        have ht : (f r == some true) = false := by rw [hf]; rfl
        have hfo : (f r == some false) = true := by rw [hf]; rfl
        rw [hstep, ih, hallc, hf]
        by_cases hall : (rest.all fun x => (f x).isSome) = true
        · rw [hall]
          simp [List.filter_cons, ht, hfo, List.append_assoc]
        · rw [Bool.not_eq_true] at hall
          rw [hall]
          simp
      · have hstep : splitStep f (some (m, o)) r = some (m ++ [r], o) := by
          simp [splitStep, hf]
        have ht : (f r == some true) = true := by rw [hf]; rfl
        have hfo : (f r == some false) = false := by rw [hf]; rfl
        rw [hstep, ih, hallc, hf]
        by_cases hall : (rest.all fun x => (f x).isSome) = true
        · rw [hall]
          simp [List.filter_cons, ht, hfo, List.append_assoc]
        · rw [Bool.not_eq_true] at hall
          rw [hall]
          simp

lemma splitRecordsByFilter_eq (data : List RecordMap) (f : RecordMap → Option Bool) :
    splitRecordsByFilter data f =
      if data.all (fun r => (f r).isSome) then
        some (data.filter (fun r => f r == some true),
          data.filter (fun r => f r == some false))
      else none := by
  unfold splitRecordsByFilter
  rw [split_foldl_eq]
  simp

lemma some_beq_some_true (b : Bool) : ((some b : Option Bool) == some true) = b := by
  cases b <;> rfl

lemma some_beq_some_false (b : Bool) : ((some b : Option Bool) == some false) = !b := by
  cases b <;> rfl

lemma partition_stage1 (data : List RecordMap) :
    splitRecordsByFilter data (fun record => some (isWWWRecord record)) =
      some (data.filter isWWWRecord, data.filter (fun r => !isWWWRecord r)) := by
  rw [splitRecordsByFilter_eq]
  simp only [Option.isSome_some, List.all_eq_true, implies_true, if_true,
    some_beq_some_true, some_beq_some_false]

lemma partitionRecords_eq (data : List RecordMap) :
    partitionRecords data =
      if (data.filter (fun r => !isWWWRecord r)).all (fun x => (isNCIRecord x).isSome) then
        some (data.filter isWWWRecord,
          (data.filter (fun r => !isWWWRecord r)).filter
            (fun r => isNCIRecord r == some true),
          (data.filter (fun r => !isWWWRecord r)).filter
            (fun r => isNCIRecord r == some false))
      else none := by
  unfold partitionRecords
  rw [partition_stage1]
  show (match splitRecordsByFilter (data.filter (fun r => !isWWWRecord r)) isNCIRecord with
    | none => none
    | some (otherNCIRecords, otherFedRecords) =>
      some (data.filter isWWWRecord, otherNCIRecords, otherFedRecords)) = _
  rw [splitRecordsByFilter_eq]
  by_cases hall : ((data.filter (fun r => !isWWWRecord r)).all
      fun x => (isNCIRecord x).isSome) = true
  · rw [if_pos hall, if_pos hall]
  · rw [Bool.not_eq_true] at hall
    rw [hall]
    simp

lemma partitionRecords_char {data www nci fed : List RecordMap}
    (h : partitionRecords data = some (www, nci, fed)) :
    www = data.filter isWWWRecord ∧
    nci = (data.filter (fun r => !isWWWRecord r)).filter
      (fun r => isNCIRecord r == some true) ∧
    fed = (data.filter (fun r => !isWWWRecord r)).filter
      (fun r => isNCIRecord r == some false) ∧
    ∀ r ∈ data.filter (fun r => !isWWWRecord r), (isNCIRecord r).isSome := by
  rw [partitionRecords_eq] at h
  by_cases hall : ((data.filter (fun r => !isWWWRecord r)).all
      fun x => (isNCIRecord x).isSome) = true
  · rw [if_pos hall] at h
    simp only [Option.some.injEq, Prod.mk.injEq] at h
    exact ⟨h.1.symm, h.2.1.symm, h.2.2.symm, List.all_eq_true.mp hall⟩
  · rw [Bool.not_eq_true] at hall
    rw [hall] at h
    simp at h

/-- Claim C1: whenever the two-stage partition succeeds, the three cohorts
partition the input: the lengths sum to the input length, every input
record lies in exactly one cohort, and each cohort is a sublist of the
input (relative order preserved). -/
theorem partition_exhaustive_disjoint_ordered (data www nci fed : List RecordMap)
    (h : partitionRecords data = some (www, nci, fed)) :
    www.length + nci.length + fed.length = data.length ∧
    (∀ r ∈ data,
      (r ∈ www ∧ r ∉ nci ∧ r ∉ fed) ∨ (r ∉ www ∧ r ∈ nci ∧ r ∉ fed) ∨
      (r ∉ www ∧ r ∉ nci ∧ r ∈ fed)) ∧
    www.Sublist data ∧ nci.Sublist data ∧ fed.Sublist data := by
  obtain ⟨hw, hn, hf, hsome⟩ := partitionRecords_char h
  subst hw; subst hn; subst hf
  refine ⟨?_, ?_, ?_, ?_, ?_⟩
  · -- lengths
    have e2 : (List.filter (fun r => isNCIRecord r == some true)
        (data.filter (fun r => !isWWWRecord r))).length =
        List.countP (fun r => isNCIRecord r == some true)
          (data.filter (fun r => !isWWWRecord r)) :=
      (List.countP_eq_length_filter _ _).symm
    have e3 : (List.filter (fun r => isNCIRecord r == some false)
        (data.filter (fun r => !isWWWRecord r))).length =
        List.countP (fun a => decide ¬((isNCIRecord a == some true) = true))
          (data.filter (fun r => !isWWWRecord r)) := by
      rw [← List.countP_eq_length_filter]
      apply List.countP_congr
      intro r hr
      rcases Option.isSome_iff_exists.mp (hsome r hr) with ⟨b, hb⟩
      rw [hb]
      cases b <;> simp
    have e23 : (List.filter (fun r => isNCIRecord r == some true)
          (data.filter (fun r => !isWWWRecord r))).length +
        (List.filter (fun r => isNCIRecord r == some false)
          (data.filter (fun r => !isWWWRecord r))).length =
        (data.filter (fun r => !isWWWRecord r)).length := by
      rw [e2, e3]
      exact (List.length_eq_countP_add_countP (fun r => isNCIRecord r == some true) _).symm
    have e1 : (data.filter isWWWRecord).length =
        List.countP (fun r => isWWWRecord r) data :=
      (List.countP_eq_length_filter _ _).symm
    have e4 : (data.filter (fun r => !isWWWRecord r)).length =
        List.countP (fun a => decide ¬(isWWWRecord a = true)) data := by
      rw [← List.countP_eq_length_filter]
      apply List.countP_congr
      intro r _
      cases hww : isWWWRecord r <;> simp [hww]
    rw [Nat.add_assoc, e23, e1, e4]
    exact (List.length_eq_countP_add_countP isWWWRecord data).symm
  · -- exactly one cohort
    intro r hr
    by_cases hww : isWWWRecord r = true
    · refine Or.inl ⟨List.mem_filter.mpr ⟨hr, hww⟩, ?_, ?_⟩
      · intro hc
        have h2 := (List.mem_filter.mp (List.mem_filter.mp hc).1).2
        rw [hww] at h2
        exact absurd h2 (by simp)
      · intro hc
        have h2 := (List.mem_filter.mp (List.mem_filter.mp hc).1).2
        rw [hww] at h2
        exact absurd h2 (by simp)
    · rw [Bool.not_eq_true] at hww
      have hnw : r ∈ data.filter (fun x => !isWWWRecord x) :=
        List.mem_filter.mpr ⟨hr, by rw [hww]; rfl⟩
      rcases Option.isSome_iff_exists.mp (hsome r hnw) with ⟨b, hb⟩
      have hnotwww : r ∉ data.filter isWWWRecord := by
        intro hc
        have h2 := (List.mem_filter.mp hc).2
        rw [hww] at h2
        exact absurd h2 (by simp)
      cases b
      · -- isNCIRecord r = some false: other-federal
        refine Or.inr (Or.inr ⟨hnotwww, ?_, ?_⟩)
        · intro hc
          have h2 := (List.mem_filter.mp hc).2
          rw [hb] at h2
          exact absurd h2 (by simp)
        · exact List.mem_filter.mpr ⟨hnw, by rw [hb]; rfl⟩
      · -- isNCIRecord r = some true: other-NCI
        refine Or.inr (Or.inl ⟨hnotwww, ?_, ?_⟩)
        · exact List.mem_filter.mpr ⟨hnw, by rw [hb]; rfl⟩
        · intro hc
          have h2 := (List.mem_filter.mp hc).2
          rw [hb] at h2
          exact absurd h2 (by simp)
  · exact List.filter_sublist data
  · exact (List.filter_sublist _).trans (List.filter_sublist data)
  · exact (List.filter_sublist _).trans (List.filter_sublist data)

/-- Witness: the partition properties at a concrete three-record dataset,
one record per cohort. -/
theorem partition_exhaustive_disjoint_ordered_witness :
    [[("final_url_website", JSValue.str "www.cancer.gov")]].length +
        [[("final_url_website", JSValue.str "dceg.cancer.gov")]].length +
        [[("final_url_website", JSValue.str "www.nih.gov")]].length =
      [[("final_url_website", JSValue.str "www.cancer.gov")],
       [("final_url_website", JSValue.str "dceg.cancer.gov")],
       [("final_url_website", JSValue.str "www.nih.gov")]].length ∧
    (∀ r ∈ [[("final_url_website", JSValue.str "www.cancer.gov")],
        [("final_url_website", JSValue.str "dceg.cancer.gov")],
        [("final_url_website", JSValue.str "www.nih.gov")]],
      (r ∈ [[("final_url_website", JSValue.str "www.cancer.gov")]] ∧
        r ∉ [[("final_url_website", JSValue.str "dceg.cancer.gov")]] ∧
        r ∉ [[("final_url_website", JSValue.str "www.nih.gov")]]) ∨
      (r ∉ [[("final_url_website", JSValue.str "www.cancer.gov")]] ∧
        r ∈ [[("final_url_website", JSValue.str "dceg.cancer.gov")]] ∧
        r ∉ [[("final_url_website", JSValue.str "www.nih.gov")]]) ∨
      (r ∉ [[("final_url_website", JSValue.str "www.cancer.gov")]] ∧
        r ∉ [[("final_url_website", JSValue.str "dceg.cancer.gov")]] ∧
        r ∈ [[("final_url_website", JSValue.str "www.nih.gov")]])) ∧
    [[("final_url_website", JSValue.str "www.cancer.gov")]].Sublist
      [[("final_url_website", JSValue.str "www.cancer.gov")],
       [("final_url_website", JSValue.str "dceg.cancer.gov")],
       [("final_url_website", JSValue.str "www.nih.gov")]] ∧
    [[("final_url_website", JSValue.str "dceg.cancer.gov")]].Sublist
      [[("final_url_website", JSValue.str "www.cancer.gov")],
       [("final_url_website", JSValue.str "dceg.cancer.gov")],
       [("final_url_website", JSValue.str "www.nih.gov")]] ∧
    [[("final_url_website", JSValue.str "www.nih.gov")]].Sublist
      [[("final_url_website", JSValue.str "www.cancer.gov")],
       [("final_url_website", JSValue.str "dceg.cancer.gov")],
       [("final_url_website", JSValue.str "www.nih.gov")]] :=
  partition_exhaustive_disjoint_ordered
    [[("final_url_website", JSValue.str "www.cancer.gov")],
     [("final_url_website", JSValue.str "dceg.cancer.gov")],
     [("final_url_website", JSValue.str "www.nih.gov")]]
    [[("final_url_website", JSValue.str "www.cancer.gov")]]
    [[("final_url_website", JSValue.str "dceg.cancer.gov")]]
    [[("final_url_website", JSValue.str "www.nih.gov")]] rfl

/-- Claim C10: the three-way partition is total only when every non-www
record has a string `final_url_website`.  A record whose field is null or
absent reaches the second stage (it is not strictly equal to the string
"www.cancer.gov") where `.match` throws an uncaught `TypeError` — the
record is not classified into the other-federal cohort; and conversely the
partition succeeds when every non-www record has a string value. -/
theorem partition_requires_string_website (data : List RecordMap) :
    ((∃ r ∈ data, jsGet r "final_url_website" = none ∨
        jsGet r "final_url_website" = some .null) →
      partitionRecords data = none) ∧
    ((∀ r ∈ data, isWWWRecord r = false →
        ∃ s, jsGet r "final_url_website" = some (.str s)) →
      (partitionRecords data).isSome) := by
  constructor
  · rintro ⟨r, hr, hnull⟩
    have hww : isWWWRecord r = false := by
      unfold isWWWRecord
      rcases hnull with hnull | hnull <;> rw [hnull]
    have hnci : isNCIRecord r = none := by
      unfold isNCIRecord
      rcases hnull with hnull | hnull <;> rw [hnull]
    have hmem : r ∈ data.filter (fun x => !isWWWRecord x) :=
      List.mem_filter.mpr ⟨hr, by rw [hww]; rfl⟩
    rw [partitionRecords_eq]
    have hall : ((data.filter (fun x => !isWWWRecord x)).all
        fun x => (isNCIRecord x).isSome) = false := by
      rw [Bool.eq_false_iff]
      intro hc
      have := List.all_eq_true.mp hc r hmem
      rw [hnci] at this
      exact absurd this (by simp)
    rw [hall]
    simp
  · intro hstr
    rw [partitionRecords_eq]
    have hall : ((data.filter (fun x => !isWWWRecord x)).all
        fun x => (isNCIRecord x).isSome) = true := by
      rw [List.all_eq_true]
      intro x hx
      obtain ⟨hxd, hxw⟩ := List.mem_filter.mp hx
      have hxw2 : isWWWRecord x = false := by
        cases hw2 : isWWWRecord x
        · rfl
        · rw [hw2] at hxw; exact absurd hxw (by simp)
      obtain ⟨s, hs⟩ := hstr x hxd hxw2
      unfold isNCIRecord
      rw [hs]
      rfl
    rw [hall]
    simp

/-- Witness: a single record with a null `final_url_website` makes the
partition fail, and a dataset of string-valued records partitions
successfully. -/
theorem partition_requires_string_website_witness :
    partitionRecords [[("final_url_website", JSValue.null)]] = none ∧
    (partitionRecords [[("final_url_website", JSValue.str "www.nih.gov")]]).isSome :=
  ⟨(partition_requires_string_website [[("final_url_website", JSValue.null)]]).1
      ⟨[("final_url_website", JSValue.null)], by simp, Or.inr rfl⟩,
    (partition_requires_string_website [[("final_url_website", JSValue.str "www.nih.gov")]]).2
      (fun r hr _ => by
        rw [List.mem_singleton.mp hr]
        exact ⟨"www.nih.gov", rfl⟩)⟩

lemma runMain_eq_some {data www nci fed : List RecordMap}
    (hpart : partitionRecords data = some (www, nci, fed)) :
    runMain data =
      (if (extractUniqueHomePageEntries www).length ≠ 1 then
        Except.error RunError.integrityError
      else
        match otherNCIdapParams (extractUniqueHomePageEntries nci),
            otherNCIthirdPartyServices (extractUniqueHomePageEntries nci) with
        | some dap, some tps =>
          Except.ok ⟨generateReport (extractUniqueHomePageEntries www)
            (extractUniqueHomePageEntries nci) (extractUniqueHomePageEntries fed), dap, tps⟩
        | _, _ => Except.error RunError.groupingTypeError) := by
  unfold runMain
  rw [hpart]

/-- Claim C3: whenever the partition succeeds but the www cohort's
home-page subset does not contain exactly one record, the run terminates
with the fatal integrity error before the report or either grouping is
produced; and a successful run implies that subset had exactly one record,
the report being built from the home-page cohorts. -/
theorem www_home_cardinality_guard (data : List RecordMap) :
    (∀ www nci fed, partitionRecords data = some (www, nci, fed) →
      (extractUniqueHomePageEntries www).length ≠ 1 →
      runMain data = .error .integrityError) ∧
    (∀ out, runMain data = .ok out →
      ∃ www nci fed, partitionRecords data = some (www, nci, fed) ∧
        (extractUniqueHomePageEntries www).length = 1 ∧
        out.homeReport = generateReport (extractUniqueHomePageEntries www)
          (extractUniqueHomePageEntries nci) (extractUniqueHomePageEntries fed)) := by
  constructor
  · intro www nci fed hpart hlen
    rw [runMain_eq_some hpart, if_pos hlen]
  · intro out hout
    rcases hpart : partitionRecords data with _ | t
    · unfold runMain at hout
      rw [hpart] at hout
      have hout2 : Except.error RunError.partitionTypeError =
          (Except.ok out : Except RunError MainOutput) := hout
      exact Except.noConfusion hout2
    · obtain ⟨www, nci, fed⟩ := t
      rw [runMain_eq_some hpart] at hout
      by_cases hlen : (extractUniqueHomePageEntries www).length ≠ 1
      · rw [if_pos hlen] at hout
        exact Except.noConfusion hout
      · rw [if_neg hlen] at hout
        refine ⟨www, nci, fed, hpart ▸ rfl, not_ne_iff.mp hlen, ?_⟩
        rcases hdap : otherNCIdapParams (extractUniqueHomePageEntries nci) with _ | dap <;>
          rcases htps : otherNCIthirdPartyServices (extractUniqueHomePageEntries nci) with _ | tps <;>
          rw [hdap, htps] at hout
        · exact Except.noConfusion hout
        · exact Except.noConfusion hout
        · exact Except.noConfusion hout
        · have hout2 : Except.ok (MainOutput.mk
              (generateReport (extractUniqueHomePageEntries www)
                (extractUniqueHomePageEntries nci) (extractUniqueHomePageEntries fed)) dap tps) =
              Except.ok out := hout
          exact (congrArg MainOutput.homeReport (Except.ok.inj hout2)).symm

/-- Witness: two www home records (no redirect target) abort the run with
the integrity error. -/
theorem www_home_cardinality_guard_witness :
    runMain [[("final_url_website", JSValue.str "www.cancer.gov")],
      [("final_url_website", JSValue.str "www.cancer.gov")]] = .error .integrityError :=
  (www_home_cardinality_guard
      [[("final_url_website", JSValue.str "www.cancer.gov")],
       [("final_url_website", JSValue.str "www.cancer.gov")]]).1
    [[("final_url_website", JSValue.str "www.cancer.gov")],
     [("final_url_website", JSValue.str "www.cancer.gov")]] [] [] rfl (by decide)

lemma dap_foldl_none (l : List RecordMap) : l.foldl dapStep none = none := by
  induction l with
  | nil => rfl
  | cons r rest ih => rw [List.foldl_cons]; exact ih

lemma dapSumCounts_assocSet (m : List (String × DapEntry)) (key : String)
    (entry : DapEntry) (hl : m.lookup key = some entry) (a s : String) :
    dapSumCounts (assocSet m key ⟨a, s, entry.count + 1⟩) = dapSumCounts m + 1 := by
  induction m with
  | nil => simp [List.lookup] at hl
  | cons p rest ih =>
    obtain ⟨k0, e0⟩ := p
    by_cases hk : key = k0
    · subst hk
      have he : e0 = entry := by simpa [List.lookup] using hl
      subst he
      simp [assocSet, dapSumCounts]
      omega
    · have h1 : (k0 == key) = false := beq_eq_false_iff_ne.mpr (Ne.symm hk)
      have h2 : (key == k0) = false := beq_eq_false_iff_ne.mpr hk
      rw [List.lookup] at hl
      rw [h2] at hl
      simp only [assocSet, h1, Bool.false_eq_true, if_false]
      simp only [dapSumCounts, List.map_cons, List.sum_cons] at ih ⊢
      rw [ih hl]
      omega

lemma dapSumCounts_jsObjSet_new (m : List (String × DapEntry)) (key : String)
    (e : DapEntry) (hl : m.lookup key = none) :
    dapSumCounts (jsObjSet m key e) = dapSumCounts m + e.count := by
  have hany : m.any (fun p => p.1 == key) = false := by
    have hiso := lookup_isSome_iff_any m key
    rw [hl] at hiso
    exact hiso.symm
  rw [jsObjSet, hany]
  simp [dapSumCounts]

lemma dapSumCounts_jsObjSet_incr (m : List (String × DapEntry)) (key : String)
    (entry : DapEntry) (hl : m.lookup key = some entry) (a s : String) :
    dapSumCounts (jsObjSet m key ⟨a, s, entry.count + 1⟩) = dapSumCounts m + 1 := by
  have hany : m.any (fun p => p.1 == key) = true := by
    have hiso := lookup_isSome_iff_any m key
    rw [hl] at hiso
    exact hiso.symm
  rw [jsObjSet, if_pos hany]
  exact dapSumCounts_assocSet m key entry hl a s

lemma dap_foldl_sum : ∀ (records : List RecordMap) (m m2 : List (String × DapEntry)),
    records.foldl dapStep (some m) = some m2 →
    dapSumCounts m2 = dapSumCounts m + records.length := by
  intro records
  induction records with
  | nil =>
    intro m m2 h
    rw [List.foldl_nil] at h
    obtain rfl := Option.some.inj h
    simp
  | cons r rest ih =>
    intro m m2 h
    rw [List.foldl_cons] at h
    rcases ha : dapParamField r "agency" with _ | agency
    · have hstep : dapStep (some m) r = none := by simp [dapStep, ha]
      rw [hstep, dap_foldl_none] at h
      exact absurd h (by simp)
    · rcases hs : dapParamField r "subagency" with _ | subagency
      · have hstep : dapStep (some m) r = none := by simp [dapStep, ha, hs]
        rw [hstep, dap_foldl_none] at h
        exact absurd h (by simp)
      · rcases hl : m.lookup (agency ++ "|" ++ subagency) with _ | entry
        · have hstep : dapStep (some m) r =
              some (jsObjSet m (agency ++ "|" ++ subagency) ⟨agency, subagency, 1⟩) := by
            simp [dapStep, ha, hs, hl]
          rw [hstep] at h
          have hsum := ih _ _ h
          rw [hsum, dapSumCounts_jsObjSet_new m _ _ hl]
          simp
          omega
        · have hstep : dapStep (some m) r =
              some (jsObjSet m (agency ++ "|" ++ subagency)
                ⟨entry.agency, entry.subagency, entry.count + 1⟩) := by
            simp [dapStep, ha, hs, hl]
          rw [hstep] at h
          have hsum := ih _ _ h
          rw [hsum, dapSumCounts_jsObjSet_incr m _ entry hl]
          simp
          omega

lemma lookup_mem {β : Type} : ∀ (m : List (String × β)) (k : String) (v : β),
    m.lookup k = some v → (k, v) ∈ m := by
  intro m
  induction m with
  | nil => intro k v h; simp [List.lookup] at h
  | cons p rest ih =>
    intro k v h
    obtain ⟨k0, v0⟩ := p
    by_cases hk : k = k0
    · subst hk
      have hv : v0 = v := by simpa [List.lookup] using h
      subst hv
      exact List.mem_cons_self _ _
    · have h2 : (k == k0) = false := beq_eq_false_iff_ne.mpr hk
      rw [List.lookup, h2] at h
      exact List.mem_cons_of_mem _ (ih k v h)

lemma mem_keys_iff_lookup_isSome {β : Type} (m : List (String × β)) (k : String) :
    k ∈ m.map Prod.fst ↔ (m.lookup k).isSome := by
  rw [lookup_isSome_iff_any]
  exact (any_fst_iff_mem m k).symm

lemma lookup_eq_none_of_not_mem {β : Type} (m : List (String × β)) (k : String)
    (h : k ∉ m.map Prod.fst) : m.lookup k = none := by
  rcases ho : m.lookup k with _ | v
  · rfl
  · exact absurd ((mem_keys_iff_lookup_isSome m k).mpr (by rw [ho]; rfl)) h

lemma jsObjSet_map_fst_present {β : Type} (m : List (String × β)) (k : String) (v : β)
    (h : m.any (fun p => p.1 == k) = true) :
    (jsObjSet m k v).map Prod.fst = m.map Prod.fst := by
  rw [jsObjSet, if_pos h, assocSet_map_fst]

lemma jsObjSet_map_fst_absent {β : Type} (m : List (String × β)) (k : String) (v : β)
    (h : m.any (fun p => p.1 == k) = false) :
    (jsObjSet m k v).map Prod.fst = m.map Prod.fst ++ [k] := by
  rw [jsObjSet, h]
  simp

lemma jsObjSet_nodupKeys {β : Type} (m : List (String × β)) (k : String) (v : β)
    (h : (m.map Prod.fst).Nodup) : ((jsObjSet m k v).map Prod.fst).Nodup := by
  by_cases hany : m.any (fun p => p.1 == k) = true
  · rw [jsObjSet_map_fst_present m k v hany]
    exact h
  · rw [Bool.not_eq_true] at hany
    rw [jsObjSet_map_fst_absent m k v hany]
    have hk : k ∉ m.map Prod.fst := fun hc => by
      rw [(any_fst_iff_mem m k).mpr hc] at hany
      exact absurd hany (by simp)
    rw [List.nodup_append]
    exact ⟨h, List.nodup_singleton k, fun a ha hb => hk ((List.mem_singleton.mp hb) ▸ ha)⟩

lemma mem_jsObjSet {β : Type} {m : List (String × β)} {k : String} {v : β} {p : String × β}
    (h : p ∈ jsObjSet m k v) : p ∈ m ∨ p = (k, v) := by
  by_cases hany : m.any (fun q => q.1 == k) = true
  · rw [jsObjSet, if_pos hany] at h
    exact mem_assocSet h
  · rw [Bool.not_eq_true] at hany
    rw [jsObjSet, hany] at h
    simp only [Bool.false_eq_true, if_false, List.mem_append, List.mem_singleton] at h
    exact h

lemma jsObjSet_mem_keys {β : Type} (m : List (String × β)) (k : String) (v : β) (d : String) :
    d ∈ (jsObjSet m k v).map Prod.fst ↔ d ∈ m.map Prod.fst ∨ d = k := by
  by_cases hany : m.any (fun p => p.1 == k) = true
  · rw [jsObjSet_map_fst_present m k v hany]
    constructor
    · exact Or.inl
    · rintro (h | rfl)
      · exact h
      · exact (any_fst_iff_mem m d).mp hany
  · rw [Bool.not_eq_true] at hany
    rw [jsObjSet_map_fst_absent m k v hany]
    simp

lemma lookupD_jsObjSet_self (m : List (String × ℕ)) (k : String) (v : ℕ) :
    lookupD (jsObjSet m k v) k = v := by
  rw [lookupD, jsObjSet_lookup_self]
  rfl

lemma lookupD_jsObjSet_ne (m : List (String × ℕ)) (k kq : String) (v : ℕ) (h : kq ≠ k) :
    lookupD (jsObjSet m k v) kq = lookupD m kq := by
  rw [lookupD, jsObjSet_lookup_ne m k kq v h]
  rfl

lemma countTruthy_iff_mem (m : List (String × ℕ)) (k : String)
    (hpos : ∀ p ∈ m, 0 < p.2) :
    countTruthy (m.lookup k) = true ↔ k ∈ m.map Prod.fst := by
  rcases ho : m.lookup k with _ | v
  · simp only [countTruthy, Option.getD_none, ne_eq, decide_not]
    rw [mem_keys_iff_lookup_isSome, ho]
    simp
  · have hv : 0 < v := hpos (k, v) (lookup_mem m k v ho)
    simp only [countTruthy, Option.getD_some, ne_eq, decide_not]
    rw [mem_keys_iff_lookup_isSome, ho]
    simp
    omega

lemma mergeSpread_cons {β : Type} (m1 : List (String × β)) (k0 : String) (v0 : β)
    (rest : List (String × β)) :
    mergeSpread m1 ((k0, v0) :: rest) = mergeSpread (jsObjSet m1 k0 v0) rest := rfl

lemma mergeSpread_lookup {β : Type} : ∀ (m2 : List (String × β)) (m1 : List (String × β))
    (k : String), (m2.map Prod.fst).Nodup →
    (mergeSpread m1 m2).lookup k =
      match m2.lookup k with
      | some v => some v
      | none => m1.lookup k := by
  intro m2
  induction m2 with
  | nil => intro m1 k _; rfl
  | cons p rest ih =>
    intro m1 k hnd
    obtain ⟨k0, v0⟩ := p
    simp only [List.map_cons] at hnd
    obtain ⟨hk0, hndr⟩ := List.nodup_cons.mp hnd
    rw [mergeSpread_cons, ih _ _ hndr]
    by_cases hk : k = k0
    · subst hk
      have hrest : rest.lookup k = none := lookup_eq_none_of_not_mem rest k hk0
      rw [hrest]
      show (jsObjSet m1 k v0).lookup k = _
      rw [jsObjSet_lookup_self]
      simp [List.lookup]
    · have h2 : (k == k0) = false := beq_eq_false_iff_ne.mpr hk
      have hcons : List.lookup k ((k0, v0) :: rest) = rest.lookup k := by
        simp [List.lookup, h2]
      rcases hr : rest.lookup k with _ | v
      · rw [hcons, hr]
        show (jsObjSet m1 k0 v0).lookup k = m1.lookup k
        exact jsObjSet_lookup_ne m1 k0 k v0 hk
      · rw [hcons, hr]

lemma mergeSpread_nodupKeys {β : Type} : ∀ (m2 m1 : List (String × β)),
    (m1.map Prod.fst).Nodup → ((mergeSpread m1 m2).map Prod.fst).Nodup := by
  intro m2
  induction m2 with
  | nil => intro m1 h; exact h
  | cons p rest ih =>
    intro m1 h
    obtain ⟨k0, v0⟩ := p
    rw [mergeSpread_cons]
    exact ih _ (jsObjSet_nodupKeys m1 k0 v0 h)

lemma mem_mergeSpread {β : Type} : ∀ (m2 m1 : List (String × β)) (p : String × β),
    p ∈ mergeSpread m1 m2 → p ∈ m1 ∨ p ∈ m2 := by
  intro m2
  induction m2 with
  | nil => intro m1 p h; exact Or.inl h
  | cons q rest ih =>
    intro m1 p h
    obtain ⟨k0, v0⟩ := q
    rw [mergeSpread_cons] at h
    rcases ih _ p h with h1 | h1
    · rcases mem_jsObjSet h1 with h2 | h2
      · exact Or.inl h2
      · exact Or.inr (h2 ▸ List.mem_cons_self _ _)
    · exact Or.inr (List.mem_cons_of_mem _ h1)

lemma inner_foldl_none (acm : List (String × ℕ)) (l : List JSValue) :
    l.foldl (innerStep acm) none = none := by
  induction l with
  | nil => rfl
  | cons v rest ih => rw [List.foldl_cons]; exact ih

lemma InnerInv_extend (acm : List (String × ℕ)) (seen : List String)
    (dac : List (String × ℕ)) (d : String) (w : ℕ)
    (hinv : InnerInv acm seen dac)
    (hw : w = lookupD acm d + seen.count d + 1) :
    InnerInv acm (seen ++ [d]) (jsObjSet dac d w) := by
  obtain ⟨hnd, hpos, hkeys, hcount⟩ := hinv
  refine ⟨jsObjSet_nodupKeys dac d w hnd, ?_, ?_, ?_⟩
  · intro p hp
    rcases mem_jsObjSet hp with h1 | h1
    · exact hpos p h1
    · rw [h1, hw]
      exact Nat.succ_pos _
  · intro x
    rw [jsObjSet_mem_keys, hkeys x]
    simp [List.mem_append]
  · intro x hx
    by_cases hxd : x = d
    · subst hxd
      rw [lookupD_jsObjSet_self, hw, List.count_append]
      have : List.count x [x] = 1 := by simp
      rw [this]
      omega
    · have hxseen : x ∈ seen := by
        rcases List.mem_append.mp hx with h1 | h1
        · exact h1
        · exact absurd (List.mem_singleton.mp h1) hxd
      rw [lookupD_jsObjSet_ne dac d x w hxd, List.count_append]
      have : List.count x [d] = 0 := by
        rw [List.count_singleton]
        simp [beq_eq_false_iff_ne.mpr (Ne.symm hxd)]
      rw [this, Nat.add_zero]
      exact hcount x hxseen

lemma inner_foldl_inv (acm : List (String × ℕ)) :
    ∀ (dvs : List JSValue) (dac : List (String × ℕ)) (seen : List String)
      (dacF : List (String × ℕ)),
      InnerInv acm seen dac →
      dvs.foldl (innerStep acm) (some dac) = some dacF →
      InnerInv acm (seen ++ dvs.filterMap strOf) dacF := by
  intro dvs
  induction dvs with
  | nil =>
    intro dac seen dacF hinv h
    rw [List.foldl_nil] at h
    obtain rfl := Option.some.inj h
    simpa using hinv
  | cons v rest ih =>
    intro dac seen dacF hinv h
    rw [List.foldl_cons] at h
    cases v with
    | str d =>
      have hfm : (JSValue.str d :: rest).filterMap strOf = d :: rest.filterMap strOf := by
        simp [strOf]
      rw [hfm, ← List.singleton_append, ← List.append_assoc]
      have hpos := hinv.2.1
      have hkeys := hinv.2.2.1
      have hcount := hinv.2.2.2
      by_cases t1 : countTruthy (dac.lookup d) = true
      · have hdmem : d ∈ dac.map Prod.fst := (countTruthy_iff_mem dac d hpos).mp t1
        have hdseen : d ∈ seen := (hkeys d).mp hdmem
        have hstep : innerStep acm (some dac) (JSValue.str d) =
            some (jsObjSet dac d ((dac.lookup d).getD 0 + 1)) := by
          simp [innerStep, t1]
        rw [hstep] at h
        have hw : (dac.lookup d).getD 0 + 1 = lookupD acm d + seen.count d + 1 := by
          have := hcount d hdseen
          rw [lookupD] at this
          omega
        exact ih _ _ _ (InnerInv_extend acm seen dac d _ hinv hw) h
      · have hdnot : d ∉ dac.map Prod.fst := fun hc =>
          t1 ((countTruthy_iff_mem dac d hpos).mpr hc)
        have hdnotseen : d ∉ seen := fun hc => hdnot ((hkeys d).mpr hc)
        have hzero : seen.count d = 0 := List.count_eq_zero.mpr hdnotseen
        by_cases t2 : countTruthy (acm.lookup d) = true
        · have hstep : innerStep acm (some dac) (JSValue.str d) =
              some (jsObjSet dac d ((acm.lookup d).getD 0 + 1)) := by
            simp [innerStep, t1, t2]
          rw [hstep] at h
          have hw : (acm.lookup d).getD 0 + 1 = lookupD acm d + seen.count d + 1 := by
            rw [lookupD, hzero]
          exact ih _ _ _ (InnerInv_extend acm seen dac d _ hinv hw) h
        · have hstep : innerStep acm (some dac) (JSValue.str d) =
              some (jsObjSet dac d 1) := by
            simp [innerStep, t1, t2]
          rw [hstep] at h
          have hacm0 : lookupD acm d = 0 := by
            rw [Bool.not_eq_true] at t2
            rw [countTruthy] at t2
            rw [lookupD]
            simpa using t2
          have hw : 1 = lookupD acm d + seen.count d + 1 := by
            rw [hacm0, hzero]
          exact ih _ _ _ (InnerInv_extend acm seen dac d _ hinv hw) h
    | undef =>
      have hstep : innerStep acm (some dac) JSValue.undef = none := rfl
      rw [hstep, inner_foldl_none] at h
      exact absurd h (by simp)
    | null =>
      have hstep : innerStep acm (some dac) JSValue.null = none := rfl
      rw [hstep, inner_foldl_none] at h
      exact absurd h (by simp)
    | bool b =>
      have hstep : innerStep acm (some dac) (JSValue.bool b) = none := rfl
      rw [hstep, inner_foldl_none] at h
      exact absurd h (by simp)
    | num q =>
      have hstep : innerStep acm (some dac) (JSValue.num q) = none := rfl
      rw [hstep, inner_foldl_none] at h
      exact absurd h (by simp)
    | arr l =>
      have hstep : innerStep acm (some dac) (JSValue.arr l) = none := rfl
      rw [hstep, inner_foldl_none] at h
      exact absurd h (by simp)
    | obj o =>
      have hstep : innerStep acm (some dac) (JSValue.obj o) = none := rfl
      rw [hstep, inner_foldl_none] at h
      exact absurd h (by simp)

lemma tps_foldl_none (l : List RecordMap) : l.foldl tpsStep none = none := by
  induction l with
  | nil => rfl
  | cons r rest ih => rw [List.foldl_cons]; exact ih

lemma tps_foldl_inv : ∀ (records : List RecordMap) (m : List (String × ℕ))
      (F : List String) (m2 : List (String × ℕ)),
    OuterInv F m → records.foldl tpsStep (some m) = some m2 →
    OuterInv (F ++ flattenDomains records) m2 := by
  intro records
  induction records with
  | nil =>
    intro m F m2 hinv h
    rw [List.foldl_nil] at h
    obtain rfl := Option.some.inj h
    simpa [flattenDomains] using hinv
  | cons r rest ih =>
    intro m F m2 hinv h
    rw [List.foldl_cons] at h
    have hflat : flattenDomains (r :: rest) = extractDomains r ++ flattenDomains rest :=
      List.flatMap_cons r rest extractDomains
    rw [hflat, ← List.append_assoc]
    by_cases htr : jsTruthy (jsGet r "third_party_service_domains") = true
    · rcases hg : jsGet r "third_party_service_domains" with _ | val
      · rw [hg] at htr
        exact absurd htr (by simp [jsTruthy])
      · rw [hg] at htr
        cases val with
        | arr domains =>
          rcases hi : innerDomainFold m domains with _ | dac
          · have hstep : tpsStep (some m) r = none := by
              simp [tpsStep, htr, hg, hi]
            rw [hstep, tps_foldl_none] at h
            exact absurd h (by simp)
          · have hstep : tpsStep (some m) r = some (mergeSpread m dac) := by
              simp [tpsStep, htr, hg, hi]
            rw [hstep] at h
            have hex : extractDomains r = domains.filterMap strOf := by
              simp [extractDomains, htr, hg]
            have hstart : InnerInv m [] [] :=
              ⟨by simp, by simp, by simp, by simp⟩
            have hinner := inner_foldl_inv m domains [] [] dac hstart hi
            rw [List.nil_append] at hinner
            obtain ⟨hndm, hposm, hcm⟩ := hinv
            obtain ⟨hndd, hposd, hkd, hcd⟩ := hinner
            have houter : OuterInv (F ++ extractDomains r) (mergeSpread m dac) := by
              refine ⟨mergeSpread_nodupKeys dac m hndm, ?_, ?_⟩
              · intro p hp
                rcases mem_mergeSpread dac m p hp with h1 | h1
                · exact hposm p h1
                · exact hposd p h1
              · intro d
                rw [hex, List.count_append]
                have hml := mergeSpread_lookup dac m d hndd
                rcases hdl : dac.lookup d with _ | v
                · have hdk : d ∉ dac.map Prod.fst := by
                    rw [mem_keys_iff_lookup_isSome, hdl]
                    simp
                  have hdseen : d ∉ domains.filterMap strOf := fun hc => hdk ((hkd d).mpr hc)
                  rw [lookupD, hml, hdl]
                  show lookupD m d = _
                  rw [hcm d, List.count_eq_zero.mpr hdseen]
                  omega
                · have hdk : d ∈ dac.map Prod.fst := by
                    rw [mem_keys_iff_lookup_isSome, hdl]
                    rfl
                  have hdseen : d ∈ domains.filterMap strOf := (hkd d).mp hdk
                  rw [lookupD, hml, hdl]
                  have hvd := hcd d hdseen
                  rw [lookupD, hdl, Option.getD_some] at hvd
                  rw [Option.getD_some, hvd, ← hcm d, lookupD]
            exact ih _ _ _ houter h
        | undef => exact absurd htr (by simp [jsTruthy, jsTruthyV])
        | null => exact absurd htr (by simp [jsTruthy, jsTruthyV])
        | bool b =>
          have hstep : tpsStep (some m) r = none := by simp [tpsStep, htr, hg]
          rw [hstep, tps_foldl_none] at h
          exact absurd h (by simp)
        | num q =>
          have hstep : tpsStep (some m) r = none := by simp [tpsStep, htr, hg]
          rw [hstep, tps_foldl_none] at h
          exact absurd h (by simp)
        | str s =>
          have hstep : tpsStep (some m) r = none := by simp [tpsStep, htr, hg]
          rw [hstep, tps_foldl_none] at h
          exact absurd h (by simp)
        | obj o =>
          have hstep : tpsStep (some m) r = none := by simp [tpsStep, htr, hg]
          rw [hstep, tps_foldl_none] at h
          exact absurd h (by simp)
    · rw [Bool.not_eq_true] at htr
      have hstep : tpsStep (some m) r = some m := by
        simp [tpsStep, htr]
      have hex : extractDomains r = [] := by
        simp [extractDomains, htr]
      rw [hstep] at h
      rw [hex, List.append_nil]
      exact ih _ _ _ hinv h

lemma values_eq_map_lookupD : ∀ (m : List (String × ℕ)), (m.map Prod.fst).Nodup →
    m.map Prod.snd = (m.map Prod.fst).map (lookupD m) := by
  intro m
  induction m with
  | nil => intro _; rfl
  | cons p rest ih =>
    intro hnd
    obtain ⟨k0, v0⟩ := p
    simp only [List.map_cons] at hnd ⊢
    obtain ⟨hk0, hndr⟩ := List.nodup_cons.mp hnd
    congr 1
    · rw [lookupD]
      simp [List.lookup]
    · rw [ih hndr]
      apply List.map_congr_left
      intro d hd
      have hne : d ≠ k0 := fun hc => hk0 (hc ▸ hd)
      have h2 : (d == k0) = false := beq_eq_false_iff_ne.mpr hne
      rw [lookupD, lookupD]
      have : List.lookup d ((k0, v0) :: rest) = List.lookup d rest := by
        simp [List.lookup, h2]
      rw [this]

lemma sum_counts_of_keys (K F : List String) (hnd : K.Nodup)
    (hiff : ∀ d, d ∈ K ↔ d ∈ F) :
    (K.map (fun d => F.count d)).sum = F.length := by
  rw [← List.sum_toFinset _ hnd]
  have hfin : K.toFinset = F.toFinset := by
    ext x
    simp only [List.mem_toFinset]
    exact hiff x
  rw [hfin]
  exact List.sum_toFinset_count_eq_length F

lemma domSum_of_inv (F : List String) (m : List (String × ℕ))
    (hinv : OuterInv F m) : domainSumCounts m = F.length := by
  obtain ⟨hnd, hpos, hc⟩ := hinv
  have hiff : ∀ d, d ∈ m.map Prod.fst ↔ d ∈ F := by
    intro d
    constructor
    · intro hd
      obtain ⟨v, hv⟩ := Option.isSome_iff_exists.mp ((mem_keys_iff_lookup_isSome m d).mp hd)
      have hvpos := hpos (d, v) (lookup_mem m d v hv)
      have hcnt : 0 < F.count d := by
        rw [← hc d, lookupD, hv]
        exact hvpos
      exact List.count_pos_iff.mp hcnt
    · intro hd
      have hcnt : 0 < lookupD m d := by
        rw [hc d]
        exact List.count_pos_iff.mpr hd
      rcases ho : m.lookup d with _ | v
      · rw [lookupD, ho] at hcnt
        simp at hcnt
      · exact (mem_keys_iff_lookup_isSome m d).mpr (by rw [ho]; rfl)
  rw [domainSumCounts, values_eq_map_lookupD m hnd]
  have hmap : (m.map Prod.fst).map (lookupD m) =
      (m.map Prod.fst).map (fun d => F.count d) :=
    List.map_congr_left (fun d _ => hc d)
  rw [hmap]
  exact sum_counts_of_keys (m.map Prod.fst) F hnd hiff

/-- Claim C7: for every other-NCI home-page cohort, when the two groupings
are produced, the DAP-parameter grouping's counts sum to the cohort size,
and the third-party-domain grouping's counts sum to the number of
(record, domain) pairs obtained by flattening each record's
`third_party_service_domains` sequence. -/
theorem grouping_counts_sum (cohort : List RecordMap) :
    (∀ dap, otherNCIdapParams cohort = some dap →
      dapSumCounts dap = cohort.length) ∧
    (∀ m, otherNCIthirdPartyServices cohort = some m →
      domainSumCounts m = (flattenDomains cohort).length) := by
  constructor
  · intro dap h
    have hsum := dap_foldl_sum cohort [] dap h
    simpa [dapSumCounts] using hsum
  · intro m h
    have hstart : OuterInv [] [] := ⟨by simp, by simp, by simp [lookupD, List.lookup]⟩
    have hinv := tps_foldl_inv cohort [] [] m hstart h
    rw [List.nil_append] at hinv
    exact domSum_of_inv _ _ hinv

/-- Witness: the grouping totals at a concrete two-record cohort (one
record with DAP parameters and two service domains, one with a repeated
domain and no DAP parameters). -/
theorem grouping_counts_sum_witness :
    dapSumCounts
        [("HHS|NIH", ⟨"HHS", "NIH", 1⟩), ("_NONE_|_NONE_", ⟨"_NONE_", "_NONE_", 1⟩)] =
      [[("dap_parameters", JSValue.obj
            [("agency", JSValue.str "HHS"), ("subagency", JSValue.str "NIH")]),
          ("third_party_service_domains",
            JSValue.arr [JSValue.str "a.com", JSValue.str "b.com"])],
        [("third_party_service_domains", JSValue.arr [JSValue.str "a.com"])]].length ∧
    domainSumCounts [("a.com", 2), ("b.com", 1)] =
      (flattenDomains
        [[("dap_parameters", JSValue.obj
            [("agency", JSValue.str "HHS"), ("subagency", JSValue.str "NIH")]),
          ("third_party_service_domains",
            JSValue.arr [JSValue.str "a.com", JSValue.str "b.com"])],
        [("third_party_service_domains", JSValue.arr [JSValue.str "a.com"])]]).length :=
  ⟨(grouping_counts_sum
      [[("dap_parameters", JSValue.obj
          [("agency", JSValue.str "HHS"), ("subagency", JSValue.str "NIH")]),
        ("third_party_service_domains",
          JSValue.arr [JSValue.str "a.com", JSValue.str "b.com"])],
       [("third_party_service_domains", JSValue.arr [JSValue.str "a.com"])]]).1
      [("HHS|NIH", ⟨"HHS", "NIH", 1⟩), ("_NONE_|_NONE_", ⟨"_NONE_", "_NONE_", 1⟩)] rfl,
    (grouping_counts_sum
      [[("dap_parameters", JSValue.obj
          [("agency", JSValue.str "HHS"), ("subagency", JSValue.str "NIH")]),
        ("third_party_service_domains",
          JSValue.arr [JSValue.str "a.com", JSValue.str "b.com"])],
       [("third_party_service_domains", JSValue.arr [JSValue.str "a.com"])]]).2
      [("a.com", 2), ("b.com", 1)] rfl⟩
